import Mathlib

/-!
# Verification of the data-manager column matching and ingestion core

Shallow embedding of `backend/app/data/column_matcher.py` and the ingestion
routes of `backend/app/routes/datasets.py` (Urology-AI/data-manager), together
with theorems settling the frozen claims about the natural-language
specification of that code.

Modelling conventions:
* Python strings are Lean `String`/`List Char`; all inputs of interest are
  ASCII, so `Char.toLower`/`Char.toUpper` model `str.lower()`/`str.upper()`.
* Scores are rationals (`ℚ`); Python floats on these code paths only ever hold
  small dyadic/decimal values, so no rounding is observable.
* The regular-expression dialect actually used by the source (literals,
  escapes `\c`, `.`, `*`, `?`, `+`, anchors `^`/`$`) is given a direct
  backtracking semantics below; constructs outside this dialect (groups,
  classes, alternation, lazy quantifiers) are treated as unsupported patterns,
  i.e. they behave like the `re.error` branch of the source, which skips the
  pattern.
-/

set_option maxRecDepth 100000

namespace DataManager

/-- ASCII whitespace as recognised by Python's `str.strip()` and the regex
class `\s` on the inputs of interest. -/
def isPySpace (c : Char) : Bool :=
  c = ' ' || c = '\t' || c = '\n' || c = '\r' || c = '\x0b' || c = '\x0c'

/-- A separator character for `re.sub(r'[_\-\s]+', …)`. -/
def isSepChar (c : Char) : Bool :=
  c = '_' || c = '-' || isPySpace c

/-- A separator character for `re.sub(r'[_\-\s\.]+', …)` (dot included). -/
def isSepDotChar (c : Char) : Bool :=
  isSepChar c || c = '.'

/-- Drop leading characters satisfying `p`. -/
def dropWhileL (p : Char → Bool) (cs : List Char) : List Char :=
  cs.dropWhile p

/-- Python `str.strip()` on a character list. -/
def pyStripL (cs : List Char) : List Char :=
  ((cs.dropWhile isPySpace).reverse.dropWhile isPySpace).reverse

/-- Python `str.strip()`. -/
def pyStrip (s : String) : String :=
  ⟨pyStripL s.toList⟩

/-- Python `str.lower()` (ASCII). -/
def pyLower (s : String) : String :=
  ⟨s.toList.map Char.toLower⟩

/-- Python `str.upper()` (ASCII). -/
def pyUpper (s : String) : String :=
  ⟨s.toList.map Char.toUpper⟩

/-- Helper for `collapseSepsL`; the flag records whether the previous
character was a separator (so only the first of a run emits a space). -/
def collapseSepsAux : Bool → List Char → List Char
  | _, [] => []
  | prevSep, c :: cs =>
    if isSepChar c then
      if prevSep then collapseSepsAux true cs
      else ' ' :: collapseSepsAux true cs
    else c :: collapseSepsAux false cs

/-- Model of `re.sub(r'[_\-\s]+', ' ', s)`: collapse every maximal run of separator
characters into a single space. -/
def collapseSepsL (cs : List Char) : List Char :=
  collapseSepsAux false cs

/-- Model of `re.sub(r'[_\-\s]+', '', s)`: delete all separator characters. -/
def removeSepsL (cs : List Char) : List Char :=
  cs.filter (fun c => !isSepChar c)

/-- Model of `re.sub(r'[_\-\s\.]+', '', s)`: delete separators and dots. -/
def removeSepsDotL (cs : List Char) : List Char :=
  cs.filter (fun c => !isSepDotChar c)

/-- Model of `re.sub(r'[.*^$]+', '', s)`: delete the characters `.`, `*`, `^`, `$`. -/
def stripMetaL (cs : List Char) : List Char :=
  cs.filter (fun c => !(c = '.' || c = '*' || c = '^' || c = '$'))

/-- Model of `str.replace('.*', '')`: delete non-overlapping occurrences of the
two-character substring `.*`, scanning left to right. -/
def removeDotStarL : List Char → List Char
  | [] => []
  | ['.'] => ['.']
  | '.' :: '*' :: cs => removeDotStarL cs
  | c :: cs => c :: removeDotStarL cs

/-- Fuel-based worker for `removeParensL`.  The fuel is structural so the
kernel can evaluate it; `removeParensL` supplies `cs.length` as fuel, which
always suffices because every recursive call strictly shrinks the list. -/
def removeParensFuel : Nat → List Char → List Char
  | 0, cs => cs
  | _ + 1, [] => []
  | fuel + 1, '(' :: cs =>
    match cs.dropWhile (fun c => c ≠ ')') with
    | [] => '(' :: cs          -- no closing paren: nothing matches from here on
    | _ :: rest => removeParensFuel fuel rest
  | fuel + 1, c :: cs => c :: removeParensFuel fuel cs

/-- Model of `re.sub(r'\([^)]*\)', '', s)`: delete every parenthesised group `(...)`
whose body contains no `)`; an `(` with no later `)` is left in place. -/
def removeParensL (cs : List Char) : List Char :=
  removeParensFuel cs.length cs

/-- The function `normalize_column_name` from `column_matcher.py`: lower-case, strip,
collapse separator runs to single spaces; empty input maps to empty. -/
def normalize_column_name (col_name : String) : List Char :=
  if col_name = "" then []
  else collapseSepsL (pyStripL (col_name.toList.map Char.toLower))

/-! ## The regex dialect of `column_matcher.py`

`re` is an external library; the fragment below gives exact semantics to the
dialect the registry patterns use.  `parseRegex` returns `none` for patterns
outside the dialect, modelling the `re.error` path of the source. -/

/-- A regex atom: a literal character or `.` (any character except newline). -/
inductive RAtom where
  | chr (c : Char)
  | dot
deriving DecidableEq, Repr

/-- A compiled regex item: an atom, a starred/optional atom, or an anchor. -/
inductive RItem where
  | atom (a : RAtom)
  | starA (a : RAtom)
  | optA (a : RAtom)
  | startA
  | endA
deriving DecidableEq, Repr

/-- Parse a pattern string into regex items.  Supports literals, `\c` escapes,
`.`, the quantifiers `*`, `?`, `+` on single atoms, and the anchors `^`/`$`.
Anything else (groups, classes, alternation, a dangling quantifier or escape)
yields `none`, which the callers treat exactly like Python's `re.error`. -/
def parseRegex : List Char → Option (List RItem)
  | [] => some []
  | '^' :: rest => (parseRegex rest).map (RItem.startA :: ·)
  | '$' :: rest => (parseRegex rest).map (RItem.endA :: ·)
  | '\\' :: [] => none
  | '\\' :: d :: '*' :: rest => (parseRegex rest).map (RItem.starA (.chr d) :: ·)
  | '\\' :: d :: '?' :: rest => (parseRegex rest).map (RItem.optA (.chr d) :: ·)
  | '\\' :: d :: '+' :: rest =>
    (parseRegex rest).map (fun l => RItem.atom (.chr d) :: RItem.starA (.chr d) :: l)
  | '\\' :: d :: rest => (parseRegex rest).map (RItem.atom (.chr d) :: ·)
  | '.' :: '*' :: rest => (parseRegex rest).map (RItem.starA .dot :: ·)
  | '.' :: '?' :: rest => (parseRegex rest).map (RItem.optA .dot :: ·)
  | '.' :: '+' :: rest =>
    (parseRegex rest).map (fun l => RItem.atom .dot :: RItem.starA .dot :: l)
  | '.' :: rest => (parseRegex rest).map (RItem.atom .dot :: ·)
  | c :: '*' :: rest =>
    if c = '(' || c = ')' || c = '[' || c = '|' || c = '*' || c = '?' || c = '+' then none
    else (parseRegex rest).map (RItem.starA (.chr c) :: ·)
  | c :: '?' :: rest =>
    if c = '(' || c = ')' || c = '[' || c = '|' || c = '*' || c = '?' || c = '+' then none
    else (parseRegex rest).map (RItem.optA (.chr c) :: ·)
  | c :: '+' :: rest =>
    if c = '(' || c = ')' || c = '[' || c = '|' || c = '*' || c = '?' || c = '+' then none
    else (parseRegex rest).map (fun l => RItem.atom (.chr c) :: RItem.starA (.chr c) :: l)
  | c :: rest =>
    if c = '(' || c = ')' || c = '[' || c = '|' || c = '*' || c = '?' || c = '+' then none
    else (parseRegex rest).map (RItem.atom (.chr c) :: ·)

/-- Case-insensitive atom match (all scoring calls pass `re.IGNORECASE`);
`.` matches any character except newline, as in Python's default mode. -/
def atomMatchI : RAtom → Char → Bool
  | .dot, c => c ≠ '\n'
  | .chr d, c => d.toLower = c.toLower

/-- Length of the longest prefix of `s` whose characters all match atom `a`. -/
def maxRun (a : RAtom) (s : List Char) : Nat :=
  (s.takeWhile (atomMatchI a)).length

/-- Backtracking matcher.  `matchHere items s pos` attempts to match `items`
against a prefix of `s`, where `pos` is the absolute position of `s` in the
subject (needed by the `^` anchor); it returns the number of characters
consumed by the first match in Python's backtracking order (greedy `*`/`?`,
leftmost alternative first). -/
def matchHere : List RItem → List Char → Nat → Option Nat
  | [], _, _ => some 0
  | .startA :: rest, s, pos => if pos = 0 then matchHere rest s pos else none
  | .endA :: rest, s, pos => if s.isEmpty then matchHere rest s pos else none
  | .atom a :: rest, s, pos =>
    match s with
    | [] => none
    | c :: s' =>
      if atomMatchI a c then (matchHere rest s' (pos + 1)).map (· + 1) else none
  | .optA a :: rest, s, pos =>
    (match s with
     | c :: s' =>
       if atomMatchI a c then (matchHere rest s' (pos + 1)).map (· + 1) else none
     | [] => none).orElse (fun _ => matchHere rest s pos)
  | .starA a :: rest, s, pos =>
    ((List.range (maxRun a s + 1)).reverse).findSome?
      (fun k => (matchHere rest (s.drop k) (pos + k)).map (· + k))

/-- Model of `re.search`: the length of the leftmost match of `items` in `s`
(`some 0` for an empty match, `none` when there is no match at all). -/
def reSearch (items : List RItem) (s : List Char) : Option Nat :=
  (List.range (s.length + 1)).findSome? (fun i => matchHere items (s.drop i) i)

/-- Model of `re.match`: does `items` match at position 0? -/
def reMatch0 (items : List RItem) (s : List Char) : Bool :=
  (matchHere items s 0).isSome

/-! ## `calculate_match_score` -/

/-- Python's `max` on two rationals, written so that it evaluates by kernel
reduction (Mathlib's lattice `max` on `ℚ` does not). -/
def qmax (a b : ℚ) : ℚ := if a ≤ b then b else a

/-- Python's `min` on two rationals (evaluable form). -/
def qmin (a b : ℚ) : ℚ := if a ≤ b then a else b

/-- Model of `pattern.replace('.*', '').replace('^', '').replace('$', '').strip()`:
the pattern with wildcards and anchors stripped (the 0.95 branch). -/
def strippedPatternForm (p : String) : List Char :=
  pyStripL ((removeDotStarL p.toList).filter (fun c => !(c = '^' || c = '$')))

/-- One iteration of the scoring loop of `calculate_match_score`: the score
contributed by pattern `p` for the normalized header, or `none` when a regex
compilation fails (`re.error`), in which case the pattern is skipped.  The
priority order is: anchored full match (1.0), stripped-pattern equality
(0.95), partial match (`min(len/total, 0.9)`, or 0.0 when `re.search`
finds nothing). -/
def tryCaseScore (normalized : List Char) (p : String) : Option ℚ :=
  match parseRegex ('^' :: p.toList ++ ['$']) with
  | none => none
  | some rFull =>
    if reMatch0 rFull normalized then some 1
    else if normalized == strippedPatternForm p then some (mkRat 95 100)
    else
      match parseRegex p.toList with
      | none => none
      | some r =>
        match reSearch r normalized with
        | some len => some (qmin (mkRat len (max normalized.length 1)) (mkRat 9 10))
        | none => some 0

/-- The separator-free clean form of a pattern used by the second pass:
`re.sub(r'[.*^$]+', '', pattern).replace(' ', '').lower()`. -/
def patternCleanForm (p : String) : List Char :=
  ((stripMetaL p.toList).filter (fun c => c ≠ ' ')).map Char.toLower

/-- The function `calculate_match_score` from `column_matcher.py`. -/
def calculate_match_score (column_name : String) (patterns : List String) : ℚ :=
  let normalized := normalize_column_name column_name
  if normalized.isEmpty then 0
  else
    let best := patterns.foldl
      (fun b p => match tryCaseScore normalized p with
        | none => b
        | some s => qmax b s) 0
    let normalized_clean := removeSepsL normalized
    patterns.foldl
      (fun b p => if normalized_clean == patternCleanForm p then qmax b 1 else b) best

/-! ## The static field pattern registry -/

/-- The table `FIELD_PATTERNS` from `column_matcher.py`, in source (insertion) order. -/
def FIELD_PATTERNS : List (String × List String) := [
  ("date_of_service", ["date.*service", "dos", "service.*date", "visit.*date", "^date of service$"]),
  ("location", ["location", "loc", "site", "facility", "^location$"]),
  ("mrn", ["^mrn$", "^m\\.r\\.n\\.?$", "medical.*record", "patient.*id", "patient.*number"]),
  ("first_name", ["^fn$", "^first name$", "^firstname$", "first.*name", "fname", "given.*name"]),
  ("last_name", ["^ln$", "^last name$", "^lastname$", "last.*name", "lname", "surname", "family.*name"]),
  ("reason_for_visit", ["reason.*visit", "chief.*complaint", "presenting.*problem", "^reason for visit$"]),
  ("points", ["^points$", "points", "score", "total.*points"]),
  ("percent", ["^percent$", "percent", "percentage", "%", "pct"]),
  ("category", ["^category$", "category", "cat", "risk.*category"]),
  ("pca_confirmed", ["pca.*confirmed", "prostate.*cancer", "cancer.*confirmed", "^pca confirmed"]),
  ("gleason_grade", ["^gg$", "^gleason$", "gleason", "gg", "gleason.*grade", "grade"]),
  ("age_group", ["age.*group", "age.*range", "^age group$"]),
  ("family_history", ["^fh$", "family.*history", "fh", "fhx", "family.*hx", "^fh of prostate$"]),
  ("race", ["^race$", "race", "ethnicity", "racial"]),
  ("genetic_mutation", ["genetic", "mutation", "gene", "brca", "^genetic risk$", "^genetic$"])]

/-- The `critical_fields` table of `suggest_column_mappings` (STEP 1). -/
def critical_fields : List (String × List String) := [
  ("mrn", ["MRN", "M.R.N.", "mrn", "medical.*record", "patient.*id", "patient.*number"]),
  ("first_name", ["FN", "F.N.", "fn", "First Name", "FirstName", "first.*name", "fname", "given.*name"]),
  ("last_name", ["LN", "L.N.", "ln", "Last Name", "LastName", "last.*name", "lname", "surname", "family.*name"])]

/-! ## `suggest_column_mappings` (three-phase greedy assignment)

A suggestion state is the accumulated suggestion list (field, header, score)
in insertion order, together with the set of consumed headers. -/

/-- A suggestion entry: canonical field, matched header, confidence. -/
abbrev Sugg := String × String × ℚ

/-- The canonical-field keys already present in the suggestion list. -/
def suggKeys (sug : List Sugg) : List String := sug.map (·.1)

/-- Inner pattern loop of STEP 1, with the `break` on an exact match.  The
state is the current `(best_match, best_score)` pair. -/
def phase1PatLoop (col : String) (col_clean col_upper col_normalized : List Char) :
    List String → Option String × ℚ → Option String × ℚ
  | [], st => st
  | p :: ps, (bm, bs) =>
    if col_normalized == removeSepsDotL ((pyStripL (stripMetaL p.toList)).map Char.toLower)
        || col_upper == (pyStripL (stripMetaL p.toList)).map Char.toUpper then
      (some col, 1)
    else
      match parseRegex p.toList with
      | none => phase1PatLoop col col_clean col_upper col_normalized ps (bm, bs)
      | some r =>
        if (reSearch r col_clean).isSome && decide (mkRat 95 100 > bs) then
          phase1PatLoop col col_clean col_upper col_normalized ps (some col, mkRat 95 100)
        else phase1PatLoop col col_clean col_upper col_normalized ps (bm, bs)

/-- The body of the STEP 1 column loop for one unconsumed header `col`:
run the pattern loop, then the field-name check `if col_normalized ==
field_normalized and 1.0 > best_score`. -/
def phase1ColStep (field : String) (pats : List String) (col : String)
    (st : Option String × ℚ) : Option String × ℚ :=
  let col_clean := pyStripL (removeParensL col.toList)
  let st1 := phase1PatLoop col col_clean (pyStripL (col_clean.map Char.toUpper))
      (removeSepsDotL (col_clean.map Char.toLower)) pats st
  if removeSepsDotL (col_clean.map Char.toLower)
      == removeSepsDotL (field.toList.map Char.toLower) && decide ((1 : ℚ) > st1.2) then
    (some col, (1 : ℚ))
  else st1

/-- Column loop of STEP 1 for one critical field. -/
def phase1ColLoop (field : String) (pats : List String) (used : List String) :
    List String → Option String × ℚ → Option String × ℚ
  | [], st => st
  | col :: cols, st =>
    if used.contains col then phase1ColLoop field pats used cols st
    else phase1ColLoop field pats used cols (phase1ColStep field pats col st)

/-- STEP 1 of `suggest_column_mappings`: one critical field.  The Python
truthiness test `if best_match and best_score > 0.5` is modelled exactly
(a `None` or empty-string best match is rejected). -/
def phase1Step (cols : List String) (exKeys : List String)
    (st : List Sugg × List String) (fp : String × List String) :
    List Sugg × List String :=
  if exKeys.contains fp.1 || (suggKeys st.1).contains fp.1 then st
  else
    match phase1ColLoop fp.1 fp.2 st.2 cols (none, 0) with
    | (some bm, bs) =>
      if bm != "" && decide (bs > mkRat 1 2) then (st.1 ++ [(fp.1, bm, bs)], st.2 ++ [bm]) else st
    | (none, _) => st

/-- STEP 2 of `suggest_column_mappings`: exact normalized-name match for one
field (first unconsumed header in file order wins). -/
def phase2Step (cols : List String) (exKeys : List String)
    (st : List Sugg × List String) (fp : String × List String) :
    List Sugg × List String :=
  if exKeys.contains fp.1 || (suggKeys st.1).contains fp.1 then st
  else
    match cols.find? (fun col =>
        !st.2.contains col &&
        removeSepsDotL ((pyStripL (removeParensL col.toList)).map Char.toLower)
          == removeSepsDotL (fp.1.toList.map Char.toLower)) with
    | some col => (st.1 ++ [(fp.1, col, 1)], st.2 ++ [col])
    | none => st

/-- Column loop of STEP 3: best `calculate_match_score` over unconsumed
headers (strict improvement). -/
def phase3ColLoop (used : List String) (pats : List String) :
    List String → Option String × ℚ → Option String × ℚ
  | [], st => st
  | col :: cols, (bm, bs) =>
    if used.contains col then phase3ColLoop used pats cols (bm, bs)
    else
      if decide (calculate_match_score ⟨pyStripL (removeParensL col.toList)⟩ pats > bs) then
        phase3ColLoop used pats cols
          (some col, calculate_match_score ⟨pyStripL (removeParensL col.toList)⟩ pats)
      else phase3ColLoop used pats cols (bm, bs)

/-- STEP 3 of `suggest_column_mappings`: general pattern matching for one
field, with the permissive threshold (0.1 for the high-value fields, 0.3
otherwise). -/
def phase3Step (cols : List String) (exKeys : List String)
    (st : List Sugg × List String) (fp : String × List String) :
    List Sugg × List String :=
  if exKeys.contains fp.1 || (suggKeys st.1).contains fp.1 then st
  else
    match phase3ColLoop st.2 fp.2 cols (none, 0) with
    | (some bm, bs) =>
      if bm != "" && decide (bs >
          if ["mrn", "first_name", "last_name", "date_of_service", "location"].contains fp.1
          then mkRat 1 10 else mkRat 3 10) then
        (st.1 ++ [(fp.1, bm, bs)], st.2 ++ [bm])
      else st
    | (none, _) => st

/-- The function `suggest_column_mappings` from `column_matcher.py` (the `data_type`
argument is accepted and ignored, exactly as in the source, where
`patterns_to_use` is always `FIELD_PATTERNS`). -/
def suggest_column_mappings (csv_columns : List String)
    (existing_mapping : List (String × String)) (data_type : String := "generic") :
    List Sugg :=
  let _ := data_type
  let exKeys := existing_mapping.map (·.1)
  let used0 := existing_mapping.map (·.2)
  let st1 := critical_fields.foldl (phase1Step csv_columns exKeys) ([], used0)
  let st2 := FIELD_PATTERNS.foldl (phase2Step csv_columns exKeys) st1
  let st3 := FIELD_PATTERNS.foldl (phase3Step csv_columns exKeys) st2
  st3.1

/-- The function `auto_map_columns` from `column_matcher.py`.  As in the source, the
`min_confidence` parameter is accepted but never consulted: every suggestion
with a strictly positive score is auto-mapped. -/
def auto_map_columns (csv_columns : List String)
    (existing_mapping : List (String × String)) (min_confidence : ℚ := mkRat 7 10)
    (data_type : String := "generic") : List (String × String) :=
  let _ := min_confidence
  let suggestions := suggest_column_mappings csv_columns existing_mapping data_type
  suggestions.foldl (fun acc e => if e.2.2 > 0 then acc ++ [(e.1, e.2.1)] else acc) []

/-! ## Claim C7: header exclusivity across the Suggester's phases -/

/-- The exclusivity invariant on a phase state `(suggestions, used)`:
assigned headers are pairwise distinct, every assigned header has been
recorded as consumed, the caller-protected header values are consumed from
the start, and no assigned header is a protected value. -/
def ExclInv (exVals : List String) (st : List Sugg × List String) : Prop :=
  (st.1.map (fun e => e.2.1)).Nodup ∧
  (∀ e ∈ st.1, e.2.1 ∈ st.2) ∧
  (∀ v ∈ exVals, v ∈ st.2) ∧
  (∀ e ∈ st.1, e.2.1 ∉ exVals)

/-- The shape of a single phase step: either it leaves the state unchanged,
or it assigns one previously unconsumed header to one field and records it. -/
def StepShape (st st' : List Sugg × List String) : Prop :=
  st' = st ∨ ∃ f col s, col ∉ st.2 ∧ st'.1 = st.1 ++ [(f, col, s)] ∧ st'.2 = st.2 ++ [col]

/-! ## Claim C8: the Matcher's scoring policy -/

/-- Modelled from the spec (§4.3 / claim C8): the claimed per-pattern score.
The maximum ranges over *well-formed* patterns only; for such a pattern the
casewise score (anchored full match 1.0; stripped-pattern equality 0.95;
partial match `min(len/total, 0.9)`; otherwise 0.0) is additionally lifted to
1.0 when the separator-free clean forms coincide.  A malformed pattern
contributes nothing at all ("malformed patterns are skipped"). -/
def specPatternScore (normalized : List Char) (p : String) : ℚ :=
  match parseRegex p.toList with
  | none => 0
  | some r =>
    qmax
      (if reMatch0 (RItem.startA :: r ++ [RItem.endA]) normalized then 1
       else if normalized == strippedPatternForm p then mkRat 95 100
       else
         match reSearch r normalized with
         | some len => qmin (mkRat len (max normalized.length 1)) (mkRat 9 10)
         | none => 0)
      (if removeSepsL normalized == patternCleanForm p then 1 else 0)

/-- Modelled from the spec (§4.3 / claim C8): the claimed Matcher score, the
maximum of `specPatternScore` over the pattern list. -/
def specMatchScore (header : String) (patterns : List String) : ℚ :=
  patterns.foldl (fun b p => qmax b (specPatternScore (normalize_column_name header) p)) 0

/-- The per-pattern contribution of the amended formula: the code's casewise
score (skipping a pattern exactly where the code's `try/except re.error`
skips it), lifted by the separator-free equality pass, which in the code
applies to every pattern, malformed ones included. -/
def specPatternScoreFixed (normalized : List Char) (p : String) : ℚ :=
  qmax ((tryCaseScore normalized p).getD 0)
    (if removeSepsL normalized == patternCleanForm p then 1 else 0)

/-- The amended Matcher score: 0 for a header with empty normal form, else
the maximum of the per-pattern contributions. -/
def specMatchScoreFixed (header : String) (patterns : List String) : ℚ :=
  if (normalize_column_name header).isEmpty then 0
  else
    patterns.foldl
      (fun b p => qmax b (specPatternScoreFixed (normalize_column_name header) p)) 0

/-! ## `routes/datasets.py`: cell values and Python scalar helpers

Rows arrive as mappings from header to scalar cell value (strings or `None`
from the CSV reader; numbers, booleans, NaN and timestamps from the
spreadsheet reader).  Record fields additionally hold JSON dicts (the raw
snapshot and the extension map).  `PyCell` is a scalar cell; `PyVal` is a
record-field value.  `vdate` models both `datetime` and `pandas.Timestamp`
(the latter is a subclass of the former, and `isinstance(value, datetime)`
is checked first everywhere it matters). -/

/-- A calendar timestamp (no microseconds or timezone, which none of the
modelled code paths produce or inspect). -/
structure PyDate where
  year : ℕ
  month : ℕ
  day : ℕ
  hour : ℕ
  minute : ℕ
  second : ℕ
deriving DecidableEq, Repr

/-- A Python scalar cell value. -/
inductive PyCell where
  | vnone
  | vstr (s : String)
  | vint (n : ℤ)
  | vfloat (q : ℚ)
  | vnan
  | vbool (b : Bool)
  | vdate (d : PyDate)
deriving DecidableEq, Repr

/-- A record-field value: a scalar, a JSON dict of scalars, or a JSON list
of scalars (the shapes this code reads and writes). -/
inductive PyVal where
  | cell (c : PyCell)
  | vdict (m : List (String × PyCell))
  | vlist (l : List PyCell)
deriving DecidableEq, Repr

/-- Python truthiness of a scalar (`NaN` is truthy; `""`, `0`, `None`,
`False` are falsy). -/
def pyTruthyCell : PyCell → Bool
  | .vnone => false
  | .vstr s => s ≠ ""
  | .vint n => n ≠ 0
  | .vfloat q => q ≠ 0
  | .vnan => true
  | .vbool b => b
  | .vdate _ => true

/-- Python truthiness of a record-field value. -/
def pyTruthyVal : PyVal → Bool
  | .cell c => pyTruthyCell c
  | .vdict m => !m.isEmpty
  | .vlist l => !l.isEmpty

/-- Model of `pd.isna` on a scalar: true for `None` and NaN. -/
def pdIsna : PyCell → Bool
  | .vnone => true
  | .vnan => true
  | _ => false

/-- Zero-padded decimal rendering of a natural number to (at least) `w`
digits. -/
def padNum (w : ℕ) (n : ℕ) : String :=
  let s := toString n
  if s.length < w then ⟨List.replicate (w - s.length) '0'⟩ ++ s else s

/-- Model of `datetime.isoformat()`: `YYYY-MM-DDTHH:MM:SS`. -/
def isoformatD (d : PyDate) : String :=
  padNum 4 d.year ++ "-" ++ padNum 2 d.month ++ "-" ++ padNum 2 d.day ++ "T" ++
    padNum 2 d.hour ++ ":" ++ padNum 2 d.minute ++ ":" ++ padNum 2 d.second

/-- Model of `str(datetime)`: `YYYY-MM-DD HH:MM:SS`. -/
def strOfDate (d : PyDate) : String :=
  padNum 4 d.year ++ "-" ++ padNum 2 d.month ++ "-" ++ padNum 2 d.day ++ " " ++
    padNum 2 d.hour ++ ":" ++ padNum 2 d.minute ++ ":" ++ padNum 2 d.second

/-- Decimal rendering of a rational that is an exact decimal (the only floats
these code paths produce); non-decimal rationals fall back to the exact
fraction form, which no modelled input reaches. -/
def strOfRat (q : ℚ) : String :=
  let sign := if q < 0 then "-" else ""
  let n := q.num.natAbs
  let d := q.den
  if d = 1 then sign ++ toString n ++ ".0"
  else
    -- scale the denominator to a power of ten when possible
    match (List.range 18).find? (fun k => d ∣ 10 ^ k) with
    | some k =>
      let scaled := n * (10 ^ k / d)
      let digits := padNum k scaled
      let ip := digits.toList.take (digits.length - k)
      let fp := digits.toList.drop (digits.length - k)
      sign ++ (if ip.isEmpty then "0" else (⟨ip⟩ : String)) ++ "." ++ (⟨fp⟩ : String)
    | none => sign ++ toString n ++ "/" ++ toString d

/-- Model of `str(value)` for a scalar cell. -/
def pyStrOfCell : PyCell → String
  | .vnone => "None"
  | .vstr s => s
  | .vint n => toString n
  | .vfloat q => strOfRat q
  | .vnan => "nan"
  | .vbool b => if b then "True" else "False"
  | .vdate d => strOfDate d

/-- Greedily read a run of ASCII digits; fails on an empty run. -/
def readDigits : List Char → Option (ℕ × ℕ × List Char)
  | cs =>
    let run := cs.takeWhile (fun c => c.isDigit)
    if run.isEmpty then none
    else some (run.foldl (fun acc c => acc * 10 + (c.toNat - 48)) 0, run.length, cs.drop run.length)

/-- Model of `float(str)` for finite decimal literals: optional surrounding
whitespace, optional sign, `digits[.digits][e[sign]digits]` or
`.digits[e[sign]digits]`.  The special words `inf`/`nan` and underscore
separators are outside the modelled domain and fail. -/
def pyParseFloat (s : String) : Option ℚ :=
  let cs := pyStripL s.toList
  let (sign, cs) : ℚ × List Char :=
    match cs with
    | '-' :: rest => (-1, rest)
    | '+' :: rest => (1, rest)
    | rest => (1, rest)
  let mantissa : Option (ℚ × List Char) :=
    match readDigits cs with
    | some (ip, _, rest) =>
      match rest with
      | '.' :: rest2 =>
        match readDigits rest2 with
        | some (fp, k, rest3) => some ((ip : ℚ) + mkRat fp (10 ^ k), rest3)
        | none => some ((ip : ℚ), rest2)
      | _ => some ((ip : ℚ), rest)
    | none =>
      match cs with
      | '.' :: rest2 =>
        match readDigits rest2 with
        | some (fp, k, rest3) => some (mkRat fp (10 ^ k), rest3)
        | none => none
      | _ => none
  match mantissa with
  | none => none
  | some (m, rest) =>
    match rest with
    | [] => some (sign * m)
    | e :: rest2 =>
      if e = 'e' || e = 'E' then
        let (esign, rest3) : ℤ × List Char :=
          match rest2 with
          | '-' :: r => (-1, r)
          | '+' :: r => (1, r)
          | r => (1, r)
        match readDigits rest3 with
        | some (ex, _, []) =>
          some (sign * m * (if esign < 0 then mkRat 1 (10 ^ ex) else ((10 ^ ex : ℕ) : ℚ)))
        | _ => none
      else none

/-- Model of `int(str)` for decimal integer literals (optional whitespace and sign). -/
def pyParseInt (s : String) : Option ℤ :=
  let cs := pyStripL s.toList
  let (sign, cs) : ℤ × List Char :=
    match cs with
    | '-' :: rest => (-1, rest)
    | '+' :: rest => (1, rest)
    | rest => (1, rest)
  match readDigits cs with
  | some (n, _, []) => some (sign * n)
  | _ => none

/-- Model of `float(value)` on a scalar: `none` models the `ValueError`/`TypeError`
branch.  `bool` is an `int` subclass (`float(True) = 1.0`); `float(nan)` is
NaN; `None` and `datetime` raise. -/
def pyFloatCell : PyCell → Option PyCell
  | .vstr s => (pyParseFloat s).map .vfloat
  | .vint n => some (.vfloat n)
  | .vfloat q => some (.vfloat q)
  | .vbool b => some (.vfloat (if b then 1 else 0))
  | .vnan => some .vnan
  | .vnone => none
  | .vdate _ => none

/-- Model of `int(value)` on a scalar (`none` = raises). -/
def pyIntCell : PyCell → Option PyCell
  | .vstr s => (pyParseInt s).map .vint
  | .vint n => some (.vint n)
  | .vfloat q => some (.vint (q.num / (q.den : ℤ)))
  | .vbool b => some (.vint (if b then 1 else 0))
  | .vnan => none
  | .vnone => none
  | .vdate _ => none

/-! ## `parse_date_string` (lines 44–81 of `routes/datasets.py`)

The explicit `strptime` format list is modelled exactly; CPython's `%Y`
matches exactly four digits, `%y` exactly two (with the 69-pivot century
rule), and `%m`/`%d`/`%H`/`%M`/`%S` one or two digits with their range checks;
`datetime` construction then validates the day against the month length.
The `dateutil` fallback is an optional external dependency

(`DATEUTIL_AVAILABLE` is `False` when the import fails, and the function then
returns `None` for anything the explicit formats reject); the model takes
that supported configuration. -/

/-- A `strptime` format token: a date/time field or a literal character. -/
inductive FmtTok where
  | tm | td | tY | ty | tH | tMin | tS
  | lit (c : Char)
deriving DecidableEq, Repr

/-- Parser state: the fields collected so far (CPython defaults: 1900-01-01
00:00:00). -/
structure FmtState where
  year : ℕ := 1900
  month : ℕ := 1
  day : ℕ := 1
  hour : ℕ := 0
  minute : ℕ := 0
  second : ℕ := 0
deriving DecidableEq, Repr

/-- Read one or two digits with a range bound. -/
def readNum12 (lo hi : ℕ) (cs : List Char) : Option (ℕ × List Char) :=
  match cs with
  | c1 :: c2 :: rest =>
    if c1.isDigit && c2.isDigit then
      let v := (c1.toNat - 48) * 10 + (c2.toNat - 48)
      if lo ≤ v && v ≤ hi then some (v, rest) else none
    else if c1.isDigit then
      let v := c1.toNat - 48
      if lo ≤ v && v ≤ hi then some (v, c2 :: rest) else none
    else none
  | [c1] =>
    if c1.isDigit then
      let v := c1.toNat - 48
      if lo ≤ v && v ≤ hi then some (v, []) else none
    else none
  | [] => none

/-- Read exactly `k` digits. -/
def readNumExact (k : ℕ) (cs : List Char) : Option (ℕ × List Char) :=
  let run := cs.take k
  if run.length = k && run.all (fun c => c.isDigit) then
    some (run.foldl (fun acc c => acc * 10 + (c.toNat - 48)) 0, cs.drop k)
  else none

/-- Run one format token against the input. -/
def runFmtTok (t : FmtTok) (cs : List Char) (st : FmtState) :
    Option (FmtState × List Char) :=
  match t with
  | .tm => (readNum12 1 12 cs).map (fun p => ({ st with month := p.1 }, p.2))
  | .td => (readNum12 1 31 cs).map (fun p => ({ st with day := p.1 }, p.2))
  | .tY => (readNumExact 4 cs).map (fun p => ({ st with year := p.1 }, p.2))
  | .ty => (readNumExact 2 cs).map (fun p =>
      ({ st with year := if p.1 ≤ 68 then 2000 + p.1 else 1900 + p.1 }, p.2))
  | .tH => (readNum12 0 23 cs).map (fun p => ({ st with hour := p.1 }, p.2))
  | .tMin => (readNum12 0 59 cs).map (fun p => ({ st with minute := p.1 }, p.2))
  | .tS => (readNum12 0 61 cs).map (fun p => ({ st with second := p.1 }, p.2))
  | .lit c => match cs with
    | c1 :: rest => if c1 = c then some (st, rest) else none
    | [] => none

/-- Run a whole format; the input must be consumed entirely (`strptime`
raises "unconverted data remains" otherwise). -/
def runFmt : List FmtTok → List Char → FmtState → Option FmtState
  | [], [], st => some st
  | [], _ :: _, _ => none
  | t :: ts, cs, st =>
    match runFmtTok t cs st with
    | some (st2, rest) => runFmt ts rest st2
    | none => none

/-- Gregorian leap-year rule. -/
def isLeapYear (y : ℕ) : Bool :=
  (y % 4 = 0 && y % 100 ≠ 0) || y % 400 = 0

/-- Days in a month. -/
def daysInMonth (y m : ℕ) : ℕ :=
  if m = 2 then (if isLeapYear y then 29 else 28)
  else if m = 4 || m = 6 || m = 9 || m = 11 then 30
  else 31

/-- Model of `datetime(...)` construction: it validates the day against the month. -/
def mkPyDate (st : FmtState) : Option PyDate :=
  if 1 ≤ st.day && st.day ≤ daysInMonth st.year st.month && 1 ≤ st.year then
    some ⟨st.year, st.month, st.day, st.hour, st.minute, st.second⟩
  else none

/-- The ten explicit formats of `parse_date_string`, in source order. -/
def date_formats : List (List FmtTok) :=
  let slash : FmtTok := .lit '/'
  let dash : FmtTok := .lit '-'
  let sp : FmtTok := .lit ' '
  let colon : FmtTok := .lit ':'
  [[.tm, slash, .td, slash, .tY],
   [.tm, dash, .td, dash, .tY],
   [.td, slash, .tm, slash, .tY],
   [.td, dash, .tm, dash, .tY],
   [.tY, dash, .tm, dash, .td],
   [.tY, slash, .tm, slash, .td],
   [.tm, slash, .td, slash, .ty],
   [.td, slash, .tm, slash, .ty],
   [.tY, dash, .tm, dash, .td, sp, .tH, colon, .tMin, colon, .tS],
   [.tm, slash, .td, slash, .tY, sp, .tH, colon, .tMin, colon, .tS]]

/-- The function `parse_date_string` from `routes/datasets.py`: strip, try the explicit
formats in order, otherwise `None` (the `dateutil` fallback modelled as
unavailable, a configuration the source explicitly supports). -/
def parse_date_string (date_str : String) : Option PyDate :=
  if date_str = "" then none
  else
    let cs := pyStripL date_str.toList
    if cs.isEmpty then none
    else
      date_formats.findSome? (fun fmt => (runFmt fmt cs {}).bind mkPyDate)

/-! ## Canonical fields and the two type-coercion layers -/

/-- The canonical fields: `PatientCreate`'s declared fields minus the
metadata set (`dataset_id`, `patient_key`, `raw`, `extra_fields`, `id`,
`created_at`, `updated_at`, `missing_fields`, `imputed_fields`).  The source
iterates a Python `set` here, whose order is unspecified; field order does
not affect any per-field behaviour, and this model fixes the schema
declaration order. -/
def all_canonical_fields : List String :=
  ["date_of_service", "location", "mrn", "first_name", "last_name",
   "reason_for_visit", "points", "percent", "category", "pca_confirmed",
   "gleason_grade", "age_group", "family_history", "race", "genetic_mutation"]

def numeric_float_fields : List String := ["points", "percent"]

def numeric_int_fields : List String := []

def boolean_fields : List String := ["pca_confirmed"]

def datetime_fields : List String := ["date_of_service"]

def string_fields : List String :=
  ["mrn", "first_name", "last_name", "location", "reason_for_visit",
   "age_group", "race", "family_history", "genetic_mutation", "gleason_grade", "category"]

/-- The per-field type coercion of the apply-mapping path (`map_columns`,
lines 462–539): NaN is normalised to `None` first; then the branch for the
field's class runs.  Booleans accept the affirmative set
`{'true','yes','1','y','confirmed'}` on the lower-cased, *stripped* string;
numbers go through `float()` with failure → `None`; datetimes pass
`datetime` objects through and parse strings with `parse_date_string`;
string fields take `str(value).strip()`. -/
def mapCoerceField (canonical_field : String) (v0 : PyCell) : PyCell :=
  let v : PyCell := match v0 with
    | .vnan => .vnone
    | x => x
  if numeric_float_fields.contains canonical_field then
    match v with
    | .vnone => .vnone
    | x => (pyFloatCell x).getD .vnone
  else if numeric_int_fields.contains canonical_field then
    match v with
    | .vnone => .vnone
    | x => ((pyFloatCell x).bind pyIntCell).getD .vnone
  else if boolean_fields.contains canonical_field then
    match v with
    | .vbool b => .vbool b
    | .vstr s =>
      .vbool ((["true", "yes", "1", "y", "confirmed"] : List String).contains
        ⟨pyStripL (s.toList.map Char.toLower)⟩)
    | .vint n => .vbool (n ≠ 0)
    | .vfloat q => .vbool (q ≠ 0)
    | _ => .vnone
  else if datetime_fields.contains canonical_field then
    match v with
    | .vnone => .vnone
    | .vdate d => .vdate d
    | .vstr s =>
      match parse_date_string s with
      | some d => .vdate d
      | none => .vnone
    | x =>
      match parse_date_string (pyStrOfCell x) with
      | some d => .vdate d
      | none => .vnone
  else if string_fields.contains canonical_field then
    match v with
    | .vnone => .vnone
    | x => .vstr (pyStrip (pyStrOfCell x))
  else
    match v with
    | .vnone => .vnone
    | .vint n => .vint n
    | .vfloat q => .vfloat q
    | .vbool b => .vbool b
    | x => if pyTruthyCell x then .vstr (pyStrip (pyStrOfCell x)) else .vnone

/-- The per-field type coercion of the reprocess-update path
(`reprocess_update`, lines 1133–1166).  `none` models `continue`: the field
is skipped, not set.  Booleans accept `{'true','1','yes','y','t'}` on the
lower-cased (NOT stripped) string and fall back to `bool(value)` for other
scalars; numbers go through `float()` with failure → skip; datetimes always
re-parse `str(value)`; everything else takes `str(value).strip()` with the
empty result skipped. -/
def reprocessCoerceField (canonical_field : String) (v : PyCell) : Option PyCell :=
  let v : PyCell := match v with
    | .vdate d => .vdate d      -- pd.Timestamp → to_pydatetime()
    | x => x
  if pdIsna v then none
  else if numeric_float_fields.contains canonical_field then
    pyFloatCell v
  else if numeric_int_fields.contains canonical_field then
    pyIntCell v
  else if boolean_fields.contains canonical_field then
    match v with
    | .vbool b => some (.vbool b)
    | .vstr s => some (.vbool ((["true", "1", "yes", "y", "t"] : List String).contains
        (pyLower s)))
    | x => some (.vbool (pyTruthyCell x))
  else if datetime_fields.contains canonical_field then
    match parse_date_string (pyStrOfCell v) with
    | some d => some (.vdate d)
    | none => none
  else
    let sv := pyStrip (pyStrOfCell v)
    if sv = "" then none else some (.vstr sv)

/-! ## Records, attribute access, and the fill-only-if-missing merge -/

/-- A persisted record, as the generic attribute map the merge loop iterates
(`patient_data.items()` / `getattr` / `setattr`). -/
abbrev PatientRec := List (String × PyVal)

/-- Model of `getattr(obj, name, None)`. -/
def getAttr (r : PatientRec) (f : String) : PyVal :=
  (List.lookup f r).getD (.cell .vnone)

/-- Model of `setattr(obj, name, v)`: update the first binding, or add one. -/
def setAttr : PatientRec → String → PyVal → PatientRec
  | [], f, v => [(f, v)]
  | (k, w) :: r, f, v => if k = f then (k, v) :: r else (k, w) :: setAttr r f v

/-- Dict assignment `d[k] = v` on a scalar map (insertion order preserved,
existing keys updated in place). -/
def assocSetCell : List (String × PyCell) → String → PyCell → List (String × PyCell)
  | [], k, v => [(k, v)]
  | (k0, v0) :: r, k, v => if k0 = k then (k0, v) :: r else (k0, v0) :: assocSetCell r k v

/-- Model of `old.update(new)` for scalar dicts. -/
def dictUpdate (old new : List (String × PyCell)) : List (String × PyCell) :=
  new.foldl (fun acc kv => assocSetCell acc kv.1 kv.2) old

/-- The missing test in the fill-only-if-missing sense (`map_columns` lines
617–626 and `reprocess_update` lines 1119–1127): `None`, a blank string, or
an empty dict/list. -/
def isMissingVal : PyVal → Bool
  | .cell .vnone => true
  | .cell (.vstr s) => pyStrip s = ""
  | .vdict m => m.isEmpty
  | .vlist l => l.isEmpty
  | _ => false

/-- Whether a candidate value gets written once the target is missing
(`map_columns` lines 628–638): non-`None`, and a string only when non-blank,
a dict/list only when non-empty. -/
def writableNew : PyVal → Bool
  | .cell .vnone => false
  | .cell (.vstr s) => !(pyStrip s == "")
  | .vdict m => !m.isEmpty
  | .vlist l => !l.isEmpty
  | .cell _ => true

/-- Fields the merge loop skips outright (`map_columns` line 615). -/
def updateMergeSkip : List String :=
  ["dataset_id", "id", "created_at", "updated_at", "patient_key"]

/-- One iteration of the fill-only-if-missing merge loop. -/
def mergeStep (st : PatientRec × Bool) (kv : String × PyVal) : PatientRec × Bool :=
  if updateMergeSkip.contains kv.1 then st
  else if isMissingVal (getAttr st.1 kv.1) && writableNew kv.2 then
    (setAttr st.1 kv.1 kv.2, true)
  else st

/-- The update branch of `map_columns` (lines 611–641) without the
timestamp: merge `patient_data` into the existing record under
fill-only-if-missing, reporting whether anything was written. -/
def updateExisting (existing : PatientRec) (patient_data : List (String × PyVal)) :
    PatientRec × Bool :=
  patient_data.foldl mergeStep (existing, false)

/-- The full update branch: on any write, `updated_at` is set to now. -/
def updateExistingRecord (existing : PatientRec) (patient_data : List (String × PyVal))
    (now : PyVal) : PatientRec × Bool :=
  match updateExisting existing patient_data with
  | (r, true) => (setAttr r "updated_at" now, true)
  | (r, false) => (r, false)

/-! ## Row resolution (`map_columns` lines 599–609) -/

/-- Index of the first list element satisfying `p`. -/
def findIdxL (p : PatientRec → Bool) : List PatientRec → Option ℕ
  | [] => none
  | r :: rs => if p r then some 0 else (findIdxL p rs).map (fun j => j + 1)

/-- Lookup `findByKey`: first record of the dataset with the given ordinal record
key (the SQL `filter(dataset_id, patient_key).first()`). -/
def findIdxByKey (store : List PatientRec) (did key : String) : Option ℕ :=
  findIdxL (fun r =>
    getAttr r "dataset_id" == PyVal.cell (.vstr did) &&
    getAttr r "patient_key" == PyVal.cell (.vstr key)) store

/-- Lookup `findBySecondaryIdentity`: first record of the dataset with the given
`mrn` value. -/
def findIdxByMrn (store : List PatientRec) (did : String) (mrn : PyVal) : Option ℕ :=
  findIdxL (fun r =>
    getAttr r "dataset_id" == PyVal.cell (.vstr did) &&
    getAttr r "mrn" == mrn) store

/-- The source's resolution order: the ordinal-key lookup runs FIRST; only
when it finds nothing, and the row's `mrn` is truthy, is the
secondary-identity lookup consulted. -/
def resolveExistingIdx (store : List PatientRec) (did key : String) (mrn : PyVal) :
    Option ℕ :=
  match findIdxByKey store did key with
  | some i => some i
  | none => if pyTruthyVal mrn then findIdxByMrn store did mrn else none

/-! ## The apply-mapping pass (`map_columns`, lines 414–656) -/

/-- Raw-snapshot cleaning (lines 415–431): timestamps become ISO strings,
`None`/NaN become `None`, everything else is stored as-is. -/
def cleanRawCell : PyCell → PyCell
  | .vdate d => .vstr (isoformatD d)
  | .vnone => .vnone
  | .vnan => .vnone
  | x => x

/-- The raw snapshot of a row. -/
def buildRawData (row : List (String × PyCell)) : List (String × PyCell) :=
  row.map (fun kv => (kv.1, cleanRawCell kv.2))

/-- Extension-value cleaning (lines 556–589): timestamps become ISO strings;
`None`/NaN were already filtered by the caller. -/
def cleanExtraCell : PyCell → PyCell
  | .vdate d => .vstr (isoformatD d)
  | x => x

/-- Extension data of a row (lines 541–589): first the caller-directed
`create_extra_fields` entries (header → custom name), then every remaining
unmapped header in row order; `None`/NaN values are dropped. -/
def buildExtraFields (create_extra : List (String × String))
    (mapped_csv : List String) (row : List (String × PyCell)) :
    List (String × PyCell) :=
  let part1 := create_extra.foldl
    (fun acc kv =>
      match List.lookup kv.1 row with
      | none => acc
      | some v =>
        if pdIsna v then acc
        else assocSetCell acc kv.2 (cleanExtraCell v))
    []
  row.foldl
    (fun acc kv =>
      if mapped_csv.contains kv.1 then acc
      else if pdIsna kv.2 then acc
      else assocSetCell acc kv.1 (cleanExtraCell kv.2))
    part1

/-- Candidate record data of a row (lines 433–539): metadata, the raw
snapshot, every canonical field initialised to `None`, then the mapped,
coerced values. -/
def buildPatientData (did : String) (rowIdx : ℕ) (colmap : List (String × String))
    (row : List (String × PyCell)) : List (String × PyVal) :=
  let base : List (String × PyVal) :=
    [("dataset_id", .cell (.vstr did)),
     ("patient_key", .cell (.vstr (toString (rowIdx + 1)))),
     ("raw", .vdict (buildRawData row))]
    ++ all_canonical_fields.map (fun f => (f, PyVal.cell .vnone))
  all_canonical_fields.foldl
    (fun pd f =>
      match List.lookup f colmap with
      | none => pd
      | some csv_col =>
        if csv_col ≠ "" && row.any (fun kv => kv.1 == csv_col) then
          setAttr pd f (.cell (mapCoerceField f ((List.lookup csv_col row).getD .vnone)))
        else pd)
    base

/-- Model of `PatientCreate(**patient_data)` validation, modelled on the value shapes
this pipeline produces: required `dataset_id` and `patient_key`, and each
optional field either `None` or of its declared type. -/
def validatePatientCreate (pd : List (String × PyVal)) : Bool :=
  let isOptStr : PyVal → Bool := fun v => match v with
    | .cell .vnone => true | .cell (.vstr _) => true | _ => false
  let isOptFloat : PyVal → Bool := fun v => match v with
    | .cell .vnone => true | .cell (.vfloat _) => true | .cell (.vint _) => true
    | .cell .vnan => true | _ => false
  let isOptBool : PyVal → Bool := fun v => match v with
    | .cell .vnone => true | .cell (.vbool _) => true | _ => false
  let isOptDate : PyVal → Bool := fun v => match v with
    | .cell .vnone => true | .cell (.vdate _) => true | _ => false
  let isOptDict : PyVal → Bool := fun v => match v with
    | .cell .vnone => true | .vdict _ => true | _ => false
  (pd.any (fun kv => kv.1 == "dataset_id")) &&
  (match List.lookup "patient_key" pd with
   | some (.cell (.vstr _)) => true
   | _ => false) &&
  isOptDate (getAttr pd "date_of_service") &&
  string_fields.all (fun f => isOptStr (getAttr pd f)) &&
  isOptFloat (getAttr pd "points") && isOptFloat (getAttr pd "percent") &&
  isOptBool (getAttr pd "pca_confirmed") &&
  isOptDict (getAttr pd "raw") && isOptDict (getAttr pd "extra_fields")

/-- The caller-supplied mapping request: the confirmed column map and the
optional header → custom-extension-name map. -/
structure MappingRequest where
  column_map : List (String × String)
  create_extra_fields : List (String × String)
deriving DecidableEq, Repr

/-- How an apply-mapping pass aborts. -/
inductive PassErr where
  | unboundLocalExistingPatient
  | rowCreationError (rowIdx : ℕ)
deriving DecidableEq, Repr

/-- The evolving state of an apply-mapping pass.  `ep` is the Python local
variable `existing_patient`: `none` while the name is still unassigned
(before the first row completes its lookups), then `some (some i)` /
`some none` for a bound reference / bound `None`. -/
structure PassState where
  store : List PatientRec
  ep : Option (Option ℕ)
  created : ℕ
  updated : ℕ
  err : Option PassErr
deriving DecidableEq, Repr

/-- One row of the apply-mapping pass (`map_columns` loop body, lines
414–656).  The extension-data merge at line 592 reads `existing_patient`
BEFORE its first assignment at line 600; processing the first row therefore
raises `UnboundLocalError` at that point, modelled as the
`unboundLocalExistingPatient` abort. -/
def mapColumnsRowStep (did : String) (req : MappingRequest) (now : PyVal)
    (st : PassState) (rowIdx : ℕ) (row : List (String × PyCell)) : PassState :=
  if st.err.isSome then st
  else
    let pd0 := buildPatientData did rowIdx req.column_map row
    let mapped_csv := req.column_map.map (fun kv => kv.2)
      ++ req.create_extra_fields.map (fun kv => kv.1)
    let extra := buildExtraFields req.create_extra_fields mapped_csv row
    match st.ep with
    | none => { st with err := some .unboundLocalExistingPatient }
    | some epPrev =>
      let extra2 :=
        match epPrev with
        | some i =>
          match getAttr (st.store.getD i []) "extra_fields" with
          | .vdict old => if old.isEmpty then extra else dictUpdate old extra
          | _ => extra
        | none => extra
      let pd := pd0 ++
        [("extra_fields", if extra2.isEmpty then PyVal.cell .vnone else .vdict extra2)]
      let key := toString (rowIdx + 1)
      match resolveExistingIdx st.store did key ((List.lookup "mrn" pd).getD (.cell .vnone)) with
      | some i =>
        match updateExistingRecord (st.store.getD i []) pd now with
        | (r2, true) =>
          { st with store := st.store.set i r2, ep := some (some i),
                    updated := st.updated + 1 }
        | (r2, false) =>
          { st with store := st.store.set i r2, ep := some (some i) }
      | none =>
        if validatePatientCreate pd then
          { st with store := st.store ++ [pd], created := st.created + 1, ep := some none }
        else
          { st with err := some (.rowCreationError (rowIdx + 1)), ep := some none }

/-- Loop `for row_idx, row in enumerate(rows)`: fold the row step with an
explicit running index. -/
def mapColumnsPassAux (did : String) (req : MappingRequest) (now : PyVal) :
    ℕ → List (List (String × PyCell)) → PassState → PassState
  | _, [], st => st
  | i, row :: rows, st =>
    mapColumnsPassAux did req now (i + 1) rows (mapColumnsRowStep did req now st i row)

/-- The apply-mapping pass over all rows of the file. -/
def mapColumnsPass (did : String) (req : MappingRequest)
    (rows : List (List (String × PyCell))) (store : List PatientRec) (now : PyVal) :
    PassState :=
  mapColumnsPassAux did req now 0 rows
    { store := store, ep := none, created := 0, updated := 0, err := none }

/-! ## The reprocess-update pass (`reprocess_update`, lines 1027–1196) -/

/-- Model of `{p.patient_key: p for p in patients}`: for each key, the LAST record
with that key wins; return its index. -/
def lastIdxByKey (store : List PatientRec) (key : String) : Option ℕ :=
  match findIdxL (fun r => getAttr r "patient_key" == PyVal.cell (.vstr key))
      store.reverse with
  | none => none
  | some j => some (store.length - 1 - j)

/-- Test `csv_value is None or (isinstance(csv_value, str) and csv_value.strip() == "")`
at line 1113. -/
def reprocessSkipEmpty : PyCell → Bool
  | .vnone => true
  | .vstr s => pyStrip s == ""
  | _ => false

/-- One mapped field of the reprocess-update row loop (lines 1105–1175):
skip non-canonical keys, empty file values, populated stored values and
failed coercions; otherwise set the field and count it. -/
def reprocessFieldStep (row : List (String × PyCell))
    (acc : PatientRec × Bool × ℕ) (kv : String × String) : PatientRec × Bool × ℕ :=
  if !all_canonical_fields.contains kv.1 then acc
  else
    let csv_value := (List.lookup kv.2 row).getD .vnone
    if reprocessSkipEmpty csv_value then acc
    else if !isMissingVal (getAttr acc.1 kv.1) then acc
    else
      match reprocessCoerceField kv.1 csv_value with
      | none => acc
      | some c => (setAttr acc.1 kv.1 (.cell c), true, acc.2.2 + 1)

/-- One row of the reprocess-update pass (lines 1095–1179): for each mapped
canonical field whose file value is non-empty and whose stored value is
missing, coerce and set; count written fields, stamp `updated_at` and count
the patient when anything changed. -/
def reprocessRowStep (colmap : List (String × String)) (now : PyVal)
    (st : List PatientRec × ℕ × ℕ) (rowIdx : ℕ) (row : List (String × PyCell)) :
    List PatientRec × ℕ × ℕ :=
  match lastIdxByKey st.1 (toString (rowIdx + 1)) with
  | none => st
  | some i =>
    match colmap.foldl (reprocessFieldStep row) (st.1.getD i [], false, 0) with
    | (p2, true, fcount) =>
      (st.1.set i (setAttr p2 "updated_at" now), st.2.1 + 1, st.2.2 + fcount)
    | (p2, false, fcount) => (st.1.set i p2, st.2.1, st.2.2 + fcount)

/-- Loop `for row_idx, row in enumerate(rows)` for the reprocess pass. -/
def reprocessUpdateAux (colmap : List (String × String)) (now : PyVal) :
    ℕ → List (List (String × PyCell)) → List PatientRec × ℕ × ℕ →
      List PatientRec × ℕ × ℕ
  | _, [], st => st
  | i, row :: rows, st =>
    reprocessUpdateAux colmap now (i + 1) rows (reprocessRowStep colmap now st i row)

/-- The reprocess-update pass: store, patients-updated count, fields-updated
count. -/
def reprocessUpdatePass (colmap : List (String × String))
    (rows : List (List (String × PyCell))) (store : List PatientRec) (now : PyVal) :
    List PatientRec × ℕ × ℕ :=
  reprocessUpdateAux colmap now 0 rows (store, 0, 0)

theorem qmax_eq_max (a b : ℚ) : qmax a b = max a b := by
  simp [qmax, max_def]

theorem qmin_eq_min (a b : ℚ) : qmin a b = min a b := by
  simp [qmin, min_def]

/-! ## Claim C4: the five-header auto-mapping scenario -/

/-- C4 counterexample.  The claim asserts that for the header list
`["Patient ID", "First Name", "Last Name", "DOS", "Pts"]` the Auto-Mapper
yields a five-field map including `points ↦ "Pts"` with confidence ≥ 0.9.
In fact no pattern of the `points` registry entry matches `"Pts"`, so the
Suggester produces no `points` suggestion at all and the Auto-Mapper output
has no `points` entry. -/
theorem C4_counterexample :
    (suggest_column_mappings ["Patient ID", "First Name", "Last Name", "DOS", "Pts"]
        []).lookup "points" = none ∧
    (auto_map_columns ["Patient ID", "First Name", "Last Name", "DOS", "Pts"]
        []).contains ("points", "Pts") = false := by
  decide

/-- C4 (amended): for the header list
`["Patient ID", "First Name", "Last Name", "DOS", "Pts"]` the Auto-Mapper run
over the static field pattern registry yields exactly the four-field map
`{mrn ↦ "Patient ID", first_name ↦ "First Name", last_name ↦ "Last Name",
date_of_service ↦ "DOS"}`, each with suggestion confidence 1.0 (hence ≥ 0.9);
`"Pts"` maps to nothing because `calculate_match_score` gives it 0 against
every `points` pattern. -/
theorem C4_amended :
    suggest_column_mappings ["Patient ID", "First Name", "Last Name", "DOS", "Pts"] [] =
      [("mrn", "Patient ID", 1), ("first_name", "First Name", 1),
       ("last_name", "Last Name", 1), ("date_of_service", "DOS", 1)] ∧
    auto_map_columns ["Patient ID", "First Name", "Last Name", "DOS", "Pts"] [] =
      [("mrn", "Patient ID"), ("first_name", "First Name"),
       ("last_name", "Last Name"), ("date_of_service", "DOS")] ∧
    calculate_match_score "Pts" ["^points$", "points", "score", "total.*points"] = 0 := by
  decide

/-! ## Claim C10: the Auto-Mapper threshold -/

/-- C10 counterexample.  The claim asserts the Auto-Mapper returns exactly the
suggestions whose confidence exceeds the caller-supplied minimum `m`, so that
a suggestion with confidence in `(0, m]` is excluded.  For the header
`"the category x"` the Suggester scores `category` at 4/7 ≈ 0.571; calling the
Auto-Mapper with `m = 0.7` (its own default) still returns that pair, because
the source never consults `min_confidence`. -/
theorem C10_counterexample :
    suggest_column_mappings ["the category x"] [] =
      [("category", "the category x", mkRat 4 7)] ∧
    mkRat 4 7 ≤ mkRat 7 10 ∧
    auto_map_columns ["the category x"] [] (mkRat 7 10) =
      [("category", "the category x")] := by
  decide

/-- Unfolding the Auto-Mapper accumulator: the fold is an append of the
filtered, projected suggestion list. -/
theorem automap_foldl_eq (l : List Sugg) (acc : List (String × String)) :
    l.foldl (fun acc e => if e.2.2 > 0 then acc ++ [(e.1, e.2.1)] else acc) acc
      = acc ++ (l.filter (fun e => decide (e.2.2 > 0))).map (fun e => (e.1, e.2.1)) := by
  induction l generalizing acc with
  | nil => simp
  | cons e l ih =>
    simp only [List.foldl_cons, List.filter_cons, decide_eq_true_eq]
    by_cases h : e.2.2 > 0
    · rw [if_pos h, if_pos h, ih]
      simp
    · rw [if_neg h, if_neg h, ih]

/-- C10 (amended): the Auto-Mapper ignores the caller-supplied minimum
confidence entirely — its output is the same for every `m` — and it returns
exactly the canonical-field → header pairs of the Suggester's output whose
confidence is strictly positive, with the confidence dropped. -/
theorem C10_amended (cols : List String) (ex : List (String × String)) (m m' : ℚ)
    (dt : String) (f c : String) :
    auto_map_columns cols ex m dt = auto_map_columns cols ex m' dt ∧
    ((f, c) ∈ auto_map_columns cols ex m dt ↔
      ∃ s, (f, c, s) ∈ suggest_column_mappings cols ex dt ∧ s > 0) := by
  constructor
  · rfl
  · unfold auto_map_columns
    rw [automap_foldl_eq]
    simp only [List.nil_append, List.mem_map, List.mem_filter, decide_eq_true_eq]
    constructor
    · rintro ⟨e, ⟨he, hs⟩, heq⟩
      exact ⟨e.2.2, by
        have : e = (f, c, e.2.2) := by
          cases e with
          | mk e1 e2 =>
            cases e2 with
            | mk e21 e22 =>
              simp only [Prod.mk.injEq] at heq
              simp [heq.1, heq.2]
        rw [this] at he
        exact ⟨he, hs⟩⟩
    · rintro ⟨s, hs, hpos⟩
      exact ⟨(f, c, s), ⟨hs, hpos⟩, rfl⟩

theorem stepShape_preserves {exVals : List String} {st st' : List Sugg × List String}
    (h : StepShape st st') (hi : ExclInv exVals st) : ExclInv exVals st' := by
  obtain ⟨h1, h2, h3, h4⟩ := hi
  rcases h with rfl | ⟨f, col, s, hcol, hs1, hs2⟩
  · exact ⟨h1, h2, h3, h4⟩
  · refine ⟨?_, ?_, ?_, ?_⟩
    · rw [hs1, List.map_append, List.nodup_append]
      refine ⟨h1, List.nodup_singleton _, ?_⟩
      intro x hx hx'
      simp only [List.map_cons, List.map_nil, List.mem_singleton] at hx'
      subst hx'
      obtain ⟨e, he, hex⟩ := List.mem_map.mp hx
      exact hcol (hex ▸ h2 e he)
    · intro e he
      rw [hs1] at he
      rw [hs2]
      rcases List.mem_append.mp he with he | he
      · exact List.mem_append.mpr (Or.inl (h2 e he))
      · simp only [List.mem_singleton] at he
        subst he
        exact List.mem_append.mpr (Or.inr (List.mem_singleton.mpr rfl))
    · intro v hv
      rw [hs2]
      exact List.mem_append.mpr (Or.inl (h3 v hv))
    · intro e he
      rw [hs1] at he
      rcases List.mem_append.mp he with he | he
      · exact h4 e he
      · simp only [List.mem_singleton] at he
        subst he
        intro hmem
        exact hcol (h3 _ hmem)

/-- Any state reached by folding steps of the right shape from a state
satisfying the invariant still satisfies it. -/
theorem foldl_stepShape_inv {α : Type} (exVals : List String)
    (step : List Sugg × List String → α → List Sugg × List String)
    (hstep : ∀ st fp, StepShape st (step st fp)) :
    ∀ (l : List α) (st : List Sugg × List String),
      ExclInv exVals st → ExclInv exVals (l.foldl step st) := by
  intro l
  induction l with
  | nil => intro st h; exact h
  | cons fp l ih =>
    intro st h
    exact ih _ (stepShape_preserves (hstep st fp) h)

/-- The inner pattern loop of STEP 1 only ever proposes the fixed column
`col` or keeps the incoming proposal. -/
theorem phase1PatLoop_mem (col : String) (cc cu cn : List Char) :
    ∀ (ps : List String) (bm : Option String) (bs : ℚ) (m : String),
      (phase1PatLoop col cc cu cn ps (bm, bs)).1 = some m → m = col ∨ bm = some m := by
  intro ps
  induction ps with
  | nil =>
    intro bm bs m h
    exact Or.inr h
  | cons p ps ih =>
    intro bm bs m h
    rw [phase1PatLoop] at h
    split at h
    · simp only [Option.some.injEq] at h
      exact Or.inl h.symm
    · split at h
      · exact ih bm bs m h
      · split at h
        · rcases ih _ _ m h with h1 | h1
          · exact Or.inl h1
          · simp only [Option.some.injEq] at h1
            exact Or.inl h1.symm
        · exact ih bm bs m h

/-- The per-column body of STEP 1 only ever proposes the scanned column or
keeps the incoming proposal. -/
theorem phase1ColStep_mem (field : String) (pats : List String) (col : String)
    (st : Option String × ℚ) (m : String)
    (h : (phase1ColStep field pats col st).1 = some m) : m = col ∨ st.1 = some m := by
  obtain ⟨bm, bs⟩ := st
  simp only [phase1ColStep] at h
  split at h
  · simp only [Option.some.injEq] at h
    exact Or.inl h.symm
  · exact phase1PatLoop_mem col _ _ _ pats bm bs m h

/-- The column loop of STEP 1 never proposes a consumed header (given the
incoming proposal is itself unconsumed). -/
theorem phase1ColLoop_mem (field : String) (pats used : List String) :
    ∀ (cols : List String) (st : Option String × ℚ)
      (h0 : ∀ m, st.1 = some m → m ∉ used) (m : String),
      (phase1ColLoop field pats used cols st).1 = some m → m ∉ used := by
  intro cols
  induction cols with
  | nil =>
    intro st h0 m h
    exact h0 m h
  | cons col cols ih =>
    intro st h0 m h
    rw [phase1ColLoop] at h
    split at h
    · exact ih st h0 m h
    · rename_i hu
      refine ih _ ?_ m h
      intro m1 hm1
      rcases phase1ColStep_mem field pats col st m1 hm1 with h1 | h1
      · subst h1
        intro hmem
        exact hu (List.elem_eq_true_of_mem hmem)
      · exact h0 m1 h1

/-- STEP 1 has the step shape required by the invariant. -/
theorem phase1Step_shape (cols exKeys : List String)
    (st : List Sugg × List String) (fp : String × List String) :
    StepShape st (phase1Step cols exKeys st fp) := by
  rw [phase1Step]
  split
  · exact Or.inl rfl
  · split
    · rename_i bm bs hloop
      split
      · refine Or.inr ⟨fp.1, bm, bs, ?_, rfl, rfl⟩
        exact phase1ColLoop_mem fp.1 fp.2 st.2 cols (none, 0)
          (by intro m hm; cases hm) bm (by rw [hloop])
      · exact Or.inl rfl
    · exact Or.inl rfl

/-- STEP 2 has the step shape required by the invariant. -/
theorem phase2Step_shape (cols exKeys : List String)
    (st : List Sugg × List String) (fp : String × List String) :
    StepShape st (phase2Step cols exKeys st fp) := by
  rw [phase2Step]
  split
  · exact Or.inl rfl
  · split
    · rename_i col hfind
      refine Or.inr ⟨fp.1, col, 1, ?_, rfl, rfl⟩
      have hp := List.find?_some hfind
      have hcontains : st.2.contains col = false := by
        rcases Bool.and_eq_true_iff.mp hp with ⟨hnot, _⟩
        simpa using hnot
      intro hmem
      have h2 : st.2.contains col = true := List.elem_eq_true_of_mem hmem
      rw [h2] at hcontains
      cases hcontains
    · exact Or.inl rfl

/-- The column loop of STEP 3 never proposes a consumed header. -/
theorem phase3ColLoop_mem (used pats : List String) :
    ∀ (cols : List String) (bm : Option String) (bs : ℚ)
      (h0 : ∀ m, bm = some m → m ∉ used) (m : String),
      (phase3ColLoop used pats cols (bm, bs)).1 = some m → m ∉ used := by
  intro cols
  induction cols with
  | nil =>
    intro bm bs h0 m h
    exact h0 m h
  | cons col cols ih =>
    intro bm bs h0 m h
    rw [phase3ColLoop] at h
    split at h
    · exact ih bm bs h0 m h
    · rename_i hu
      split at h
      · refine ih _ _ ?_ m h
        intro m1 hm1
        simp only [Option.some.injEq] at hm1
        subst hm1
        intro hmem
        exact hu (List.elem_eq_true_of_mem hmem)
      · exact ih bm bs h0 m h

/-- STEP 3 has the step shape required by the invariant. -/
theorem phase3Step_shape (cols exKeys : List String)
    (st : List Sugg × List String) (fp : String × List String) :
    StepShape st (phase3Step cols exKeys st fp) := by
  rw [phase3Step]
  split
  · exact Or.inl rfl
  · split
    · rename_i bm bs hloop
      have hbm : bm ∉ st.2 :=
        phase3ColLoop_mem st.2 fp.2 cols none 0 (by intro m hm; cases hm) bm
          (by rw [hloop])
      split
      · split
        · exact Or.inr ⟨fp.1, bm, bs, hbm, rfl, rfl⟩
        · exact Or.inl rfl
      · split
        · exact Or.inr ⟨fp.1, bm, bs, hbm, rfl, rfl⟩
        · exact Or.inl rfl
    · exact Or.inl rfl

/-- C7: in every single run of the Mapping Suggester, over any header list and
any caller-supplied existing mapping, no source header is the matched header
of more than one canonical field, and a header already used as a value of the
caller-supplied mapping is never assigned; exclusivity is enforced at
assignment time in each of the three phases (each phase step either leaves the
state unchanged or consumes a fresh header). -/
theorem C7_suggester_exclusivity (cols : List String)
    (existing : List (String × String)) (dt : String) :
    ((suggest_column_mappings cols existing dt).map (fun e => e.2.1)).Nodup ∧
    ∀ e ∈ suggest_column_mappings cols existing dt,
      e.2.1 ∉ existing.map (fun kv => kv.2) := by
  have hinit : ExclInv (existing.map (fun kv => kv.2))
      ([], existing.map (fun kv => kv.2)) := by
    refine ⟨List.nodup_nil, ?_, ?_, ?_⟩
    · intro e he; cases he
    · intro v hv; exact hv
    · intro e he; cases he
  have h1 := foldl_stepShape_inv (existing.map (fun kv => kv.2)) _
    (phase1Step_shape cols (existing.map (fun kv => kv.1))) critical_fields _ hinit
  have h2 := foldl_stepShape_inv (existing.map (fun kv => kv.2)) _
    (phase2Step_shape cols (existing.map (fun kv => kv.1))) FIELD_PATTERNS _ h1
  have h3 := foldl_stepShape_inv (existing.map (fun kv => kv.2)) _
    (phase3Step_shape cols (existing.map (fun kv => kv.1))) FIELD_PATTERNS _ h2
  exact ⟨h3.1, h3.2.2.2⟩

/-- Witness for C7 at a concrete input: headers `["MRN", "Last Name"]` with
the existing mapping `{location ↦ "Site"}`; the suggestion headers are
pairwise distinct and the suggested `mrn` header is not the protected value
`"Site"`. -/
theorem C7_suggester_exclusivity_witness :
    ((suggest_column_mappings ["MRN", "Last Name"] [("location", "Site")]
        "generic").map (fun e => e.2.1)).Nodup ∧
    ("mrn", "MRN", (1 : ℚ)).2.1 ∉ [("location", "Site")].map (fun kv => kv.2) :=
  ⟨(C7_suggester_exclusivity ["MRN", "Last Name"] [("location", "Site")] "generic").1,
   (C7_suggester_exclusivity ["MRN", "Last Name"] [("location", "Site")] "generic").2
     ("mrn", "MRN", (1 : ℚ)) (by decide)⟩

/-- C8 counterexample.  Two concrete divergences between the source's
`calculate_match_score` and the claimed formula: (1) a header that normalizes
to the empty string scores 0.0 in the code regardless of the patterns, while
the claimed formula gives the well-formed pattern `"^$"` an anchored full
match (1.0); (2) the malformed pattern `"("` (a `re.error`) still participates
in the code's separator-free equality pass and lifts the score of header
`"("` to 1.0, while the claimed formula skips malformed patterns entirely. -/
theorem C8_counterexample :
    calculate_match_score "" ["^$"] = 0 ∧ specMatchScore "" ["^$"] = 1 ∧
    calculate_match_score "(" ["("] = 1 ∧ specMatchScore "(" ["("] = 0 := by
  decide

/-- Every score the casewise loop can produce lies in `[0, 1]`. -/
theorem tryCaseScore_bounds (n : List Char) (p : String) (s : ℚ)
    (h : tryCaseScore n p = some s) : 0 ≤ s ∧ s ≤ 1 := by
  rw [tryCaseScore] at h
  repeat' split at h
  any_goals cases h
  all_goals refine ⟨?_, ?_⟩
  all_goals try norm_num
  all_goals rw [qmin_eq_min]
  all_goals
    first
      | exact le_trans (min_le_right _ _) (by norm_num)
      | (refine le_min ?_ (by norm_num)
         rw [Rat.mkRat_eq_div]
         positivity)

/-- Folding the code's `match`-style max step equals folding the
`getD 0` max step, for a non-negative accumulator. -/
theorem foldl_match_eq_getD (f : String → Option ℚ) :
    ∀ (l : List String) (a : ℚ), 0 ≤ a →
      l.foldl (fun b p => match f p with | none => b | some s => qmax b s) a
        = l.foldl (fun b p => qmax b ((f p).getD 0)) a := by
  intro l
  induction l with
  | nil => intro a _; rfl
  | cons p l ih =>
    intro a ha
    simp only [List.foldl_cons]
    rcases hf : f p with _ | s
    · rw [Option.getD_none]
      have : qmax a 0 = a := by
        rw [qmax_eq_max]
        exact max_eq_left ha
      rw [this]
      exact ih a ha
    · rw [Option.getD_some]
      refine ih (qmax a s) ?_
      rw [qmax_eq_max]
      exact le_trans ha (le_max_left _ _)

/-- Folding the code's conditional-lift step equals folding the indicator
max step, for a non-negative accumulator. -/
theorem foldl_lift_eq_indicator (cond : String → Bool) :
    ∀ (l : List String) (a : ℚ), 0 ≤ a →
      l.foldl (fun b p => if cond p then qmax b 1 else b) a
        = l.foldl (fun b p => qmax b (if cond p then 1 else 0)) a := by
  intro l
  induction l with
  | nil => intro a _; rfl
  | cons p l ih =>
    intro a ha
    simp only [List.foldl_cons]
    rcases hc : cond p with _ | _
    · simp only [Bool.false_eq_true, if_false]
      have : qmax a 0 = a := by
        rw [qmax_eq_max]
        exact max_eq_left ha
      rw [this]
      exact ih a ha
    · simp only [if_true]
      refine ih (qmax a 1) ?_
      rw [qmax_eq_max]
      exact le_trans ha (le_max_left _ _)

/-- A `qmax`-fold with non-negative summands pulls the seed out as a `max`. -/
theorem foldl_qmax_pull (g : String → ℚ) (hg : ∀ p, 0 ≤ g p) :
    ∀ (l : List String) (a : ℚ), 0 ≤ a →
      l.foldl (fun b p => qmax b (g p)) a
        = max a (l.foldl (fun b p => qmax b (g p)) 0) := by
  intro l
  induction l with
  | nil =>
    intro a ha
    simp only [List.foldl_nil]
    exact (max_eq_left ha).symm
  | cons p l ih =>
    intro a ha
    simp only [List.foldl_cons]
    have h1 : 0 ≤ qmax a (g p) := by
      rw [qmax_eq_max]
      exact le_trans ha (le_max_left _ _)
    have h2 : 0 ≤ qmax 0 (g p) := by
      rw [qmax_eq_max]
      exact le_max_left _ _
    rw [ih (qmax a (g p)) h1, ih (qmax 0 (g p)) h2]
    have h3 : qmax 0 (g p) = g p := by
      rw [qmax_eq_max]
      exact max_eq_right (hg p)
    rw [h3, qmax_eq_max, max_assoc]

/-- A `qmax`-fold distributes over a pointwise `qmax` of two non-negative
summand families. -/
theorem foldl_qmax_distrib (f g : String → ℚ)
    (hf : ∀ p, 0 ≤ f p) (hg : ∀ p, 0 ≤ g p) :
    ∀ l : List String,
      l.foldl (fun b p => qmax b (qmax (f p) (g p))) 0
        = max (l.foldl (fun b p => qmax b (f p)) 0)
            (l.foldl (fun b p => qmax b (g p)) 0) := by
  intro l
  induction l with
  | nil =>
    simp only [List.foldl_nil]
    exact (max_self 0).symm
  | cons p l ih =>
    simp only [List.foldl_cons]
    have hfg : ∀ q, 0 ≤ qmax (f q) (g q) := by
      intro q
      rw [qmax_eq_max]
      exact le_trans (hf q) (le_max_left _ _)
    have e1 : l.foldl (fun b p => qmax b (qmax (f p) (g p))) (qmax 0 (qmax (f p) (g p)))
        = max (qmax 0 (qmax (f p) (g p)))
            (l.foldl (fun b p => qmax b (qmax (f p) (g p))) 0) :=
      foldl_qmax_pull _ hfg l _ (by rw [qmax_eq_max]; exact le_max_left _ _)
    have e2 : l.foldl (fun b p => qmax b (f p)) (qmax 0 (f p))
        = max (qmax 0 (f p)) (l.foldl (fun b p => qmax b (f p)) 0) :=
      foldl_qmax_pull _ hf l _ (by rw [qmax_eq_max]; exact le_max_left _ _)
    have e3 : l.foldl (fun b p => qmax b (g p)) (qmax 0 (g p))
        = max (qmax 0 (g p)) (l.foldl (fun b p => qmax b (g p)) 0) :=
      foldl_qmax_pull _ hg l _ (by rw [qmax_eq_max]; exact le_max_left _ _)
    rw [e1, e2, e3, ih]
    have hq1 : qmax 0 (qmax (f p) (g p)) = qmax (f p) (g p) := by
      rw [qmax_eq_max (0 : ℚ)]
      exact max_eq_right (hfg p)
    have hq2 : qmax 0 (f p) = f p := by
      rw [qmax_eq_max]
      exact max_eq_right (hf p)
    have hq3 : qmax 0 (g p) = g p := by
      rw [qmax_eq_max]
      exact max_eq_right (hg p)
    rw [hq1, hq2, hq3, qmax_eq_max, max_max_max_comm]

/-- A `qmax`-fold from a non-negative seed stays non-negative. -/
theorem foldl_qmax_nonneg (g : String → ℚ) :
    ∀ (l : List String) (a : ℚ), 0 ≤ a → 0 ≤ l.foldl (fun b p => qmax b (g p)) a := by
  intro l
  induction l with
  | nil => intro a ha; exact ha
  | cons p l ih =>
    intro a ha
    simp only [List.foldl_cons]
    refine ih _ ?_
    rw [qmax_eq_max]
    exact le_trans ha (le_max_left _ _)

/-- A `qmax`-fold of summands bounded by 1 from a seed bounded by 1 stays
bounded by 1. -/
theorem foldl_qmax_le_one (g : String → ℚ) (hg : ∀ p, g p ≤ 1) :
    ∀ (l : List String) (a : ℚ), a ≤ 1 → l.foldl (fun b p => qmax b (g p)) a ≤ 1 := by
  intro l
  induction l with
  | nil => intro a ha; exact ha
  | cons p l ih =>
    intro a ha
    simp only [List.foldl_cons]
    refine ih _ ?_
    rw [qmax_eq_max]
    exact max_le ha (hg p)

/-- The two scoring loops, written out: the definitional shape of
`calculate_match_score`. -/
theorem calculate_match_score_shape (header : String) (patterns : List String) :
    calculate_match_score header patterns =
      if (normalize_column_name header).isEmpty then 0
      else
        patterns.foldl
          (fun b p =>
            if removeSepsL (normalize_column_name header) == patternCleanForm p then qmax b 1
            else b)
          (patterns.foldl
            (fun b p =>
              match tryCaseScore (normalize_column_name header) p with
              | none => b
              | some s => qmax b s) 0) := rfl

/-- C8 (amended): for every header string and every pattern list, the
score of the Matcher equals the maximum over all patterns of the casewise score
(1.0 for an anchored full match; 0.95 for stripped-pattern equality;
`min(len/total, 0.9)` for a partial match; 0.0 otherwise; a pattern is skipped
at the point where its compilation raises `re.error`) lifted to 1.0 on
separator-free clean equality — a lift that applies to *every* pattern,
malformed ones included — with the exception that a header whose normalized
form is empty always scores 0.0; and the score always lies in `[0, 1]`. -/
theorem C8_amended_match_score (header : String) (patterns : List String) :
    calculate_match_score header patterns = specMatchScoreFixed header patterns ∧
    0 ≤ calculate_match_score header patterns ∧
    calculate_match_score header patterns ≤ 1 := by
  have hcase : ∀ p, 0 ≤ (tryCaseScore (normalize_column_name header) p).getD 0 := by
    intro p
    rcases h : tryCaseScore (normalize_column_name header) p with _ | s
    · simp
    · rw [Option.getD_some]
      exact (tryCaseScore_bounds _ p s h).1
  have hcase1 : ∀ p, (tryCaseScore (normalize_column_name header) p).getD 0 ≤ 1 := by
    intro p
    rcases h : tryCaseScore (normalize_column_name header) p with _ | s
    · simp
    · rw [Option.getD_some]
      exact (tryCaseScore_bounds _ p s h).2
  have hlift : ∀ p, 0 ≤ (if removeSepsL (normalize_column_name header)
      == patternCleanForm p then (1 : ℚ) else 0) := by
    intro p
    split <;> norm_num
  have hlift1 : ∀ p, (if removeSepsL (normalize_column_name header)
      == patternCleanForm p then (1 : ℚ) else 0) ≤ 1 := by
    intro p
    split <;> norm_num
  have hbound : ∀ p, specPatternScoreFixed (normalize_column_name header) p ≤ 1 := by
    intro p
    rw [specPatternScoreFixed, qmax_eq_max]
    exact max_le (hcase1 p) (hlift1 p)
  have hmain :
      calculate_match_score header patterns = specMatchScoreFixed header patterns := by
    rw [calculate_match_score_shape, specMatchScoreFixed]
    by_cases hempty : (normalize_column_name header).isEmpty
    · rw [if_pos hempty, if_pos hempty]
    · rw [if_neg hempty, if_neg hempty]
      have step1 : patterns.foldl
            (fun b p =>
              match tryCaseScore (normalize_column_name header) p with
              | none => b
              | some s => qmax b s) 0
          = patterns.foldl
              (fun b p => qmax b ((tryCaseScore (normalize_column_name header) p).getD 0)) 0 :=
        foldl_match_eq_getD (fun p => tryCaseScore (normalize_column_name header) p)
          patterns 0 (le_refl 0)
      rw [step1]
      have hA0 : (0 : ℚ) ≤ patterns.foldl
          (fun b p => qmax b ((tryCaseScore (normalize_column_name header) p).getD 0)) 0 :=
        foldl_qmax_nonneg _ patterns 0 (le_refl 0)
      have step2 : patterns.foldl
            (fun b p =>
              if removeSepsL (normalize_column_name header) == patternCleanForm p then qmax b 1
              else b)
            (patterns.foldl
              (fun b p => qmax b ((tryCaseScore (normalize_column_name header) p).getD 0)) 0)
          = patterns.foldl
              (fun b p => qmax b
                (if removeSepsL (normalize_column_name header) == patternCleanForm p then 1
                 else 0))
              (patterns.foldl
                (fun b p => qmax b ((tryCaseScore (normalize_column_name header) p).getD 0)) 0) :=
        foldl_lift_eq_indicator
          (fun p => removeSepsL (normalize_column_name header) == patternCleanForm p)
          patterns _ hA0
      rw [step2]
      have step3 : patterns.foldl
            (fun b p => qmax b
              (if removeSepsL (normalize_column_name header) == patternCleanForm p then 1
               else 0))
            (patterns.foldl
              (fun b p => qmax b ((tryCaseScore (normalize_column_name header) p).getD 0)) 0)
          = max
              (patterns.foldl
                (fun b p => qmax b ((tryCaseScore (normalize_column_name header) p).getD 0)) 0)
              (patterns.foldl
                (fun b p => qmax b
                  (if removeSepsL (normalize_column_name header) == patternCleanForm p then 1
                   else 0)) 0) :=
        foldl_qmax_pull _ hlift patterns _ hA0
      rw [step3]
      exact (foldl_qmax_distrib
        (fun p => (tryCaseScore (normalize_column_name header) p).getD 0)
        (fun p => if removeSepsL (normalize_column_name header) == patternCleanForm p then 1
                  else 0)
        hcase hlift patterns).symm
  refine ⟨hmain, ?_, ?_⟩
  · rw [hmain, specMatchScoreFixed]
    by_cases hempty : (normalize_column_name header).isEmpty
    · rw [if_pos hempty]
    · rw [if_neg hempty]
      exact foldl_qmax_nonneg _ patterns 0 (le_refl 0)
  · rw [hmain, specMatchScoreFixed]
    by_cases hempty : (normalize_column_name header).isEmpty
    · rw [if_pos hempty]
      norm_num
    · rw [if_neg hempty]
      exact foldl_qmax_le_one _ hbound patterns 0 (by norm_num)

/-! ## Attribute-access lemmas -/

theorem getAttr_setAttr_eq : ∀ (r : PatientRec) (f : String) (v : PyVal),
    getAttr (setAttr r f v) f = v := by
  intro r
  induction r with
  | nil =>
    intro f v
    simp [setAttr, getAttr, List.lookup]
  | cons kv r ih =>
    intro f v
    obtain ⟨k, w⟩ := kv
    rw [setAttr]
    by_cases h : k = f
    · subst h
      simp [getAttr, List.lookup]
    · rw [if_neg h]
      simp only [getAttr, List.lookup]
      have hbeq : (f == k) = false := by
        simp [Ne.symm h]
      rw [hbeq]
      exact ih f v

theorem getAttr_setAttr_ne : ∀ (r : PatientRec) (k f : String) (v : PyVal),
    k ≠ f → getAttr (setAttr r k v) f = getAttr r f := by
  intro r
  induction r with
  | nil =>
    intro k f v h
    simp only [setAttr, getAttr, List.lookup]
    have hbeq : (f == k) = false := by
      simp [Ne.symm h]
    rw [hbeq]
  | cons kv r ih =>
    intro k f v h
    obtain ⟨k0, w⟩ := kv
    rw [setAttr]
    by_cases h0 : k0 = k
    · subst h0
      simp only [getAttr, List.lookup]
      have hbeq : (f == k0) = false := by
        simp [Ne.symm h]
      rw [hbeq]
    · rw [if_neg h0]
      simp only [getAttr, List.lookup]
      by_cases h1 : f = k0
      · subst h1
        simp
      · have hbeq : (f == k0) = false := by
          simp [h1]
        rw [hbeq]
        exact ih k f v h

/-! ## Claim C1: the unbound `existing_patient` read aborts every pass -/

/-- A row step on an already-failed state is the identity. -/
theorem mapColumnsRowStep_err (did : String) (req : MappingRequest) (now : PyVal)
    (st : PassState) (rowIdx : ℕ) (row : List (String × PyCell))
    (h : st.err.isSome) : mapColumnsRowStep did req now st rowIdx row = st := by
  rw [mapColumnsRowStep, if_pos h]

/-- Once a pass has failed, the remaining rows change nothing. -/
theorem mapColumnsPassAux_err (did : String) (req : MappingRequest) (now : PyVal) :
    ∀ (rows : List (List (String × PyCell))) (i : ℕ) (st : PassState),
      st.err.isSome → mapColumnsPassAux did req now i rows st = st := by
  intro rows
  induction rows with
  | nil =>
    intro i st _
    rfl
  | cons row rows ih =>
    intro i st h
    rw [mapColumnsPassAux, mapColumnsRowStep_err did req now st i row h]
    exact ih (i + 1) st h

/-- On a clean state with `existing_patient` still unassigned, a row step
aborts with `UnboundLocalError` and changes nothing else. -/
theorem mapColumnsRowStep_unbound (did : String) (req : MappingRequest) (now : PyVal)
    (st : PassState) (rowIdx : ℕ) (row : List (String × PyCell))
    (herr : st.err = none) (hep : st.ep = none) :
    mapColumnsRowStep did req now st rowIdx row =
      { st with err := some .unboundLocalExistingPatient } := by
  rw [mapColumnsRowStep]
  rw [if_neg (by rw [herr]; simp)]
  rw [hep]

/-- C1: for every dataset, every (non-empty) confirmed column map, and every
source file with at least one data row, the apply-mapping pass reads the
local `existing_patient` at the extension-data merge before its first
assignment and aborts with `UnboundLocalError`: it completes with zero
records created, zero records updated, and an untouched store — on every
such input. -/
theorem C1_unbound_local_abort (did : String) (req : MappingRequest)
    (rows : List (List (String × PyCell))) (store : List PatientRec) (now : PyVal)
    (hmap : req.column_map ≠ []) (hrows : rows ≠ []) :
    (mapColumnsPass did req rows store now).err = some .unboundLocalExistingPatient ∧
    (mapColumnsPass did req rows store now).created = 0 ∧
    (mapColumnsPass did req rows store now).updated = 0 ∧
    (mapColumnsPass did req rows store now).store = store := by
  obtain ⟨row, rows', rfl⟩ : ∃ r rs, rows = r :: rs := by
    cases rows with
    | nil => exact absurd rfl hrows
    | cons r rs => exact ⟨r, rs, rfl⟩
  have hpass : mapColumnsPass did req (row :: rows') store now =
      { store := store, ep := none, created := 0, updated := 0,
        err := some .unboundLocalExistingPatient } := by
    rw [mapColumnsPass, mapColumnsPassAux]
    rw [mapColumnsRowStep_unbound did req now _ 0 row rfl rfl]
    exact mapColumnsPassAux_err did req now rows' 1 _ rfl
  rw [hpass]
  exact ⟨rfl, rfl, rfl, rfl⟩

/-- C1 witness: a concrete dataset, a one-field column map, and a one-row
CSV file — the pass aborts with the unbound-local error and no record is
created or updated. -/
theorem C1_unbound_local_abort_witness :
    (mapColumnsPass "d1" ⟨[("mrn", "MRN")], []⟩ [[("MRN", .vstr "123")]] []
        (PyVal.cell .vnone)).err = some .unboundLocalExistingPatient ∧
    (mapColumnsPass "d1" ⟨[("mrn", "MRN")], []⟩ [[("MRN", .vstr "123")]] []
        (PyVal.cell .vnone)).created = 0 ∧
    (mapColumnsPass "d1" ⟨[("mrn", "MRN")], []⟩ [[("MRN", .vstr "123")]] []
        (PyVal.cell .vnone)).updated = 0 ∧
    (mapColumnsPass "d1" ⟨[("mrn", "MRN")], []⟩ [[("MRN", .vstr "123")]] []
        (PyVal.cell .vnone)).store = [] :=
  C1_unbound_local_abort "d1" ⟨[("mrn", "MRN")], []⟩ [[("MRN", .vstr "123")]] []
    (PyVal.cell .vnone) (by decide) (by decide)

/-! ## Claim C9: the row-creation error path is unreachable -/

/-- C9 evidence: at a concrete input on which a brand-new record would be
built (empty store, one data row, a valid one-field map), the pass never
reaches record construction: it aborts at the extension-merge step with the
unbound-local error, creating nothing and reporting no row index or cause.
The `RowCreationError` branch (lines 643–656), which would abort with the
1-based row index, is dead code behind that unconditional first-row abort. -/
theorem C9_creation_error_unreachable :
    mapColumnsPass "d1" ⟨[("mrn", "MRN")], []⟩ [[("MRN", .vstr "123")]] []
        (PyVal.cell .vnone) =
      { store := [], ep := none, created := 0, updated := 0,
        err := some .unboundLocalExistingPatient } := by
  rfl

/-! ## Fill-only-if-missing: preservation lemmas -/

/-- The merge fold never changes a populated field. -/
theorem mergeFold_preserves :
    ∀ (pd : List (String × PyVal)) (r : PatientRec) (b : Bool) (f : String),
      isMissingVal (getAttr r f) = false →
      getAttr (pd.foldl mergeStep (r, b)).1 f = getAttr r f := by
  intro pd
  induction pd with
  | nil =>
    intro r b f _
    rfl
  | cons kv pd ih =>
    intro r b f hpop
    rw [List.foldl_cons, mergeStep]
    by_cases hskip : updateMergeSkip.contains kv.1 = true
    · rw [if_pos hskip]
      exact ih r b f hpop
    · rw [if_neg hskip]
      by_cases hcond : (isMissingVal (getAttr r kv.1) && writableNew kv.2) = true
      · rw [if_pos hcond]
        have hne : kv.1 ≠ f := by
          intro he
          rw [he] at hcond
          rw [hpop] at hcond
          simp at hcond
        have hget := getAttr_setAttr_ne r kv.1 f kv.2 hne
        rw [ih (setAttr r kv.1 kv.2) true f (by rw [hget]; exact hpop), hget]
      · rw [if_neg hcond]
        exact ih r b f hpop

/-- A value the merge loop is willing to write is never "missing". -/
theorem writableNew_not_missing (v : PyVal) (h : writableNew v = true) :
    isMissingVal v = false := by
  cases v with
  | cell c =>
    cases c with
    | vnone => cases h
    | vstr s =>
      simp only [writableNew, Bool.not_eq_true'] at h
      simp only [isMissingVal]
      simp only [beq_eq_false_iff_ne, ne_eq] at h
      exact decide_eq_false h
    | vint n => rfl
    | vfloat q => rfl
    | vnan => rfl
    | vbool b => rfl
    | vdate d => rfl
  | vdict m =>
    simp only [writableNew, Bool.not_eq_true'] at h
    simp only [isMissingVal, h]
  | vlist l =>
    simp only [writableNew, Bool.not_eq_true'] at h
    simp only [isMissingVal, h]

/-- The merge fold writes the first candidate value bound to a missing,
non-skipped field. -/
theorem mergeFold_fills :
    ∀ (pd : List (String × PyVal)) (r : PatientRec) (b : Bool) (f : String) (v : PyVal),
      updateMergeSkip.contains f = false →
      isMissingVal (getAttr r f) = true →
      List.lookup f pd = some v →
      writableNew v = true →
      getAttr (pd.foldl mergeStep (r, b)).1 f = v := by
  intro pd
  induction pd with
  | nil =>
    intro r b f v _ _ hlk _
    cases hlk
  | cons kv pd ih =>
    intro r b f v hskip hmiss hlk hw
    rw [List.foldl_cons, mergeStep]
    by_cases hkf : kv.1 = f
    · have hv : kv.2 = v := by
        obtain ⟨k1, v1⟩ := kv
        simp only at hkf
        subst hkf
        simp only [List.lookup, beq_self_eq_true] at hlk
        exact Option.some.inj hlk
      rw [hkf, hskip]
      simp only [Bool.false_eq_true, if_false]
      rw [hmiss, hv, hw]
      simp only [Bool.and_self, if_true]
      have hset := getAttr_setAttr_eq r f v
      rw [mergeFold_preserves pd (setAttr r f v) true f
        (by rw [hset]; exact writableNew_not_missing v hw), hset]
    · have hlk2 : List.lookup f pd = some v := by
        obtain ⟨k1, v1⟩ := kv
        simp only at hkf
        simp only [List.lookup] at hlk
        have : (f == k1) = false := beq_eq_false_iff_ne.mpr (fun he => hkf he.symm)
        rw [this] at hlk
        exact hlk
      by_cases hskip1 : updateMergeSkip.contains kv.1 = true
      · rw [if_pos hskip1]
        exact ih r b f v hskip hmiss hlk2 hw
      · rw [if_neg hskip1]
        by_cases hcond : (isMissingVal (getAttr r kv.1) && writableNew kv.2) = true
        · rw [if_pos hcond]
          have hget := getAttr_setAttr_ne r kv.1 f kv.2 hkf
          exact (congrArg id (ih (setAttr r kv.1 kv.2) true f v hskip
            (by rw [hget]; exact hmiss) hlk2 hw)).trans rfl
        · rw [if_neg hcond]
          exact ih r b f v hskip hmiss hlk2 hw

/-- The full update branch (including the `updated_at` stamp) never changes
a populated field other than `updated_at` itself. -/
theorem updateExistingRecord_preserves (existing : PatientRec)
    (pd : List (String × PyVal)) (now : PyVal) (f : String)
    (hne : f ≠ "updated_at")
    (hpop : isMissingVal (getAttr existing f) = false) :
    getAttr (updateExistingRecord existing pd now).1 f = getAttr existing f := by
  rw [updateExistingRecord]
  have hr : getAttr (updateExisting existing pd).1 f = getAttr existing f :=
    mergeFold_preserves pd existing false f hpop
  rcases hup : updateExisting existing pd with ⟨r, b⟩
  rw [hup] at hr
  cases b
  · exact hr
  · simp only []
    rw [getAttr_setAttr_ne r "updated_at" f now (fun he => hne he.symm)]
    exact hr

/-! ## List index helper lemmas -/

theorem findIdxL_lt (p : PatientRec → Bool) :
    ∀ (l : List PatientRec) (i : ℕ), findIdxL p l = some i → i < l.length := by
  intro l
  induction l with
  | nil =>
    intro i h
    cases h
  | cons r rs ih =>
    intro i h
    rw [findIdxL] at h
    by_cases hp : p r = true
    · rw [if_pos hp] at h
      cases h
      simp
    · rw [if_neg hp] at h
      rcases hj : findIdxL p rs with _ | j
      · rw [hj] at h
        cases h
      · rw [hj] at h
        simp only [Option.map] at h
        cases h
        have := ih j hj
        simp only [List.length_cons]
        omega

theorem lastIdxByKey_lt (store : List PatientRec) (key : String) (i : ℕ)
    (h : lastIdxByKey store key = some i) : i < store.length := by
  rw [lastIdxByKey] at h
  rcases hj : findIdxL (fun r => getAttr r "patient_key" == PyVal.cell (.vstr key))
      store.reverse with _ | j
  · rw [hj] at h
    cases h
  · rw [hj] at h
    cases h
    have hlen := findIdxL_lt _ _ j hj
    rw [List.length_reverse] at hlen
    omega

theorem getD_set_ne {α : Type} (x d : α) :
    ∀ (l : List α) (j i : ℕ), j ≠ i → (l.set j x).getD i d = l.getD i d := by
  intro l
  induction l with
  | nil =>
    intro j i _
    cases j <;> rfl
  | cons a l ih =>
    intro j i h
    cases j with
    | zero =>
      cases i with
      | zero => exact absurd rfl h
      | succ i => rfl
    | succ j =>
      cases i with
      | zero => rfl
      | succ i =>
        have : (a :: l).set (j + 1) x = a :: l.set j x := rfl
        rw [this]
        have h2 : (a :: l.set j x).getD (i + 1) d = (l.set j x).getD i d := rfl
        have h3 : (a :: l).getD (i + 1) d = l.getD i d := rfl
        rw [h2, h3]
        exact ih j i (fun he => h (by rw [he]))

theorem getD_set_self {α : Type} (x d : α) :
    ∀ (l : List α) (i : ℕ), i < l.length → (l.set i x).getD i d = x := by
  intro l
  induction l with
  | nil =>
    intro i h
    cases h
  | cons a l ih =>
    intro i h
    cases i with
    | zero => rfl
    | succ i =>
      have : (a :: l).set (i + 1) x = a :: l.set i x := rfl
      rw [this]
      have h2 : (a :: l.set i x).getD (i + 1) d = (l.set i x).getD i d := rfl
      rw [h2]
      exact ih i (by simp only [List.length_cons] at h; omega)

/-! ## Reprocess-update preservation -/

/-- The reprocess field loop never changes a populated field. -/
theorem reprocessFieldFold_preserves (row : List (String × PyCell)) :
    ∀ (colmap : List (String × String)) (p : PatientRec) (b : Bool) (n : ℕ)
      (f : String),
      isMissingVal (getAttr p f) = false →
      getAttr (colmap.foldl (reprocessFieldStep row) (p, b, n)).1 f = getAttr p f := by
  intro colmap
  induction colmap with
  | nil =>
    intro p b n f _
    rfl
  | cons kv colmap ih =>
    intro p b n f hpop
    rw [List.foldl_cons, reprocessFieldStep]
    by_cases hc1 : (!all_canonical_fields.contains kv.1) = true
    · rw [if_pos hc1]
      exact ih p b n f hpop
    · rw [if_neg hc1]
      by_cases hc2 : reprocessSkipEmpty ((List.lookup kv.2 row).getD .vnone) = true
      · rw [if_pos hc2]
        exact ih p b n f hpop
      · rw [if_neg hc2]
        by_cases hc3 : (!isMissingVal (getAttr p kv.1)) = true
        · rw [if_pos hc3]
          exact ih p b n f hpop
        · rw [if_neg hc3]
          rcases hco : reprocessCoerceField kv.1 ((List.lookup kv.2 row).getD .vnone)
            with _ | c
          · exact ih p b n f hpop
          · have hne : kv.1 ≠ f := by
              intro he
              rw [he] at hc3
              rw [hpop] at hc3
              simp at hc3
            have hget := getAttr_setAttr_ne p kv.1 f (.cell c) hne
            rw [ih (setAttr p kv.1 (.cell c)) true (n + 1) f (by rw [hget]; exact hpop),
              hget]

/-- A reprocess row step never changes a populated canonical field of any
record. -/
theorem reprocessRowStep_preserves (colmap : List (String × String)) (now : PyVal)
    (st : List PatientRec × ℕ × ℕ) (rowIdx : ℕ) (row : List (String × PyCell))
    (i : ℕ) (f : String) (hne : f ≠ "updated_at")
    (hpop : isMissingVal (getAttr (st.1.getD i []) f) = false) :
    getAttr ((reprocessRowStep colmap now st rowIdx row).1.getD i []) f
      = getAttr (st.1.getD i []) f := by
  rw [reprocessRowStep]
  rcases hk : lastIdxByKey st.1 (toString (rowIdx + 1)) with _ | j
  · rfl
  · simp only []
    have hjlen := lastIdxByKey_lt st.1 _ j hk
    by_cases hij : j = i
    · subst hij
      have hpres := reprocessFieldFold_preserves row colmap (st.1.getD j []) false 0 f hpop
      rcases hfold : colmap.foldl (reprocessFieldStep row) (st.1.getD j [], false, 0)
        with ⟨p2, b2, n2⟩
      rw [hfold] at hpres
      cases b2
      · simp only []
        rw [getD_set_self _ _ st.1 j hjlen]
        exact hpres
      · simp only []
        rw [getD_set_self _ _ st.1 j hjlen]
        rw [getAttr_setAttr_ne p2 "updated_at" f now (fun he => hne he.symm)]
        exact hpres
    · rcases hfold : colmap.foldl (reprocessFieldStep row) (st.1.getD j [], false, 0)
        with ⟨p2, b2, n2⟩
      cases b2
      · simp only []
        rw [getD_set_ne _ _ st.1 j i hij]
      · simp only []
        rw [getD_set_ne _ _ st.1 j i hij]

/-- The whole reprocess pass never changes a populated canonical field. -/
theorem reprocessUpdateAux_preserves (colmap : List (String × String)) (now : PyVal) :
    ∀ (rows : List (List (String × PyCell))) (k : ℕ) (st : List PatientRec × ℕ × ℕ)
      (i : ℕ) (f : String), f ≠ "updated_at" →
      isMissingVal (getAttr (st.1.getD i []) f) = false →
      getAttr ((reprocessUpdateAux colmap now k rows st).1.getD i []) f
        = getAttr (st.1.getD i []) f := by
  intro rows
  induction rows with
  | nil =>
    intro k st i f _ _
    rfl
  | cons row rows ih =>
    intro k st i f hne hpop
    rw [reprocessUpdateAux]
    have hstep := reprocessRowStep_preserves colmap now st k row i f hne hpop
    rw [ih (k + 1) (reprocessRowStep colmap now st k row) i f hne
      (by rw [hstep]; exact hpop), hstep]

/-! ## Claim C2: fill-only-if-missing on both incremental paths -/

/-- C2: on both incremental ingestion paths — the apply-mapping merge over an
existing record, and the reprocess-update pass — every canonical field whose
stored value is populated (not `None`, not a blank string, not an empty
collection) is unchanged after the pass, whatever values the incoming row
supplies. -/
theorem C2_fill_only_if_missing :
    (∀ (existing : PatientRec) (pd : List (String × PyVal)) (now : PyVal) (f : String),
      f ∈ all_canonical_fields →
      isMissingVal (getAttr existing f) = false →
      getAttr (updateExistingRecord existing pd now).1 f = getAttr existing f) ∧
    (∀ (colmap : List (String × String)) (rows : List (List (String × PyCell)))
      (store : List PatientRec) (now : PyVal) (i : ℕ) (f : String),
      f ∈ all_canonical_fields →
      isMissingVal (getAttr (store.getD i []) f) = false →
      getAttr ((reprocessUpdatePass colmap rows store now).1.getD i []) f
        = getAttr (store.getD i []) f) := by
  have hne : ∀ f ∈ all_canonical_fields, f ≠ "updated_at" := by decide
  constructor
  · intro existing pd now f hf hpop
    exact updateExistingRecord_preserves existing pd now f (hne f hf) hpop
  · intro colmap rows store now i f hf hpop
    exact reprocessUpdateAux_preserves colmap now rows 0 (store, 0, 0) i f (hne f hf) hpop

/-- C2 witness: a record with `mrn = "A"` keeps it on both paths even though
the incoming row carries `mrn = "B"`. -/
theorem C2_fill_only_if_missing_witness :
    getAttr (updateExistingRecord
        [("dataset_id", .cell (.vstr "d")), ("patient_key", .cell (.vstr "1")),
         ("mrn", .cell (.vstr "A"))]
        [("mrn", PyVal.cell (.vstr "B"))] (PyVal.cell .vnone)).1 "mrn"
      = PyVal.cell (.vstr "A") ∧
    getAttr ((reprocessUpdatePass [("mrn", "MRN")] [[("MRN", .vstr "B")]]
        [[("dataset_id", .cell (.vstr "d")), ("patient_key", .cell (.vstr "1")),
          ("mrn", .cell (.vstr "A"))]] (PyVal.cell .vnone)).1.getD 0 []) "mrn"
      = PyVal.cell (.vstr "A") := by
  constructor
  · have h := C2_fill_only_if_missing.1
      [("dataset_id", .cell (.vstr "d")), ("patient_key", .cell (.vstr "1")),
       ("mrn", .cell (.vstr "A"))]
      [("mrn", PyVal.cell (.vstr "B"))] (PyVal.cell .vnone) "mrn"
      (by decide) (by decide)
    rw [h]
    decide
  · have h := C2_fill_only_if_missing.2 [("mrn", "MRN")] [[("MRN", .vstr "B")]]
      [[("dataset_id", .cell (.vstr "d")), ("patient_key", .cell (.vstr "1")),
        ("mrn", .cell (.vstr "A"))]] (PyVal.cell .vnone) 0 "mrn"
      (by decide) (by decide)
    rw [h]
    decide

/-! ## Claim C3: resolution order of the two lookups -/

/-- C3 counterexample.  A store with record 0 (ordinal key "1", mrn "Y") and
record 1 (ordinal key "2", mrn "X"); the row has ordinal key "1" and a
non-empty mrn "X", so both lookups would find a record — yet resolution
returns record 0, the one found by ordinal key, not record 1, the one found
by secondary identity: the ordinal-key lookup runs first, contradicting the
claimed preference. -/
theorem C3_counterexample :
    resolveExistingIdx
      [[("dataset_id", PyVal.cell (.vstr "d")), ("patient_key", PyVal.cell (.vstr "1")),
        ("mrn", PyVal.cell (.vstr "Y"))],
       [("dataset_id", PyVal.cell (.vstr "d")), ("patient_key", PyVal.cell (.vstr "2")),
        ("mrn", PyVal.cell (.vstr "X"))]]
      "d" "1" (PyVal.cell (.vstr "X")) = some 0 ∧
    findIdxByMrn
      [[("dataset_id", PyVal.cell (.vstr "d")), ("patient_key", PyVal.cell (.vstr "1")),
        ("mrn", PyVal.cell (.vstr "Y"))],
       [("dataset_id", PyVal.cell (.vstr "d")), ("patient_key", PyVal.cell (.vstr "2")),
        ("mrn", PyVal.cell (.vstr "X"))]]
      "d" (PyVal.cell (.vstr "X")) = some 1 := by
  decide

/-- C3 (amended): the ordinal-key lookup is performed first and wins whenever
it finds a record; the secondary-identity (mrn) lookup is only a fallback,
consulted when the ordinal key finds nothing and the row's mrn value is
non-empty (truthy). -/
theorem C3_amended_resolution_order (store : List PatientRec) (did key : String)
    (mrn : PyVal) :
    (∀ i, findIdxByKey store did key = some i →
      resolveExistingIdx store did key mrn = some i) ∧
    (findIdxByKey store did key = none →
      resolveExistingIdx store did key mrn =
        if pyTruthyVal mrn then findIdxByMrn store did mrn else none) := by
  constructor
  · intro i h
    rw [resolveExistingIdx, h]
  · intro h
    rw [resolveExistingIdx, h]

/-- C3 witness: on the counterexample store, the ordinal lookup finds record
0 and resolution returns it. -/
theorem C3_amended_resolution_order_witness :
    resolveExistingIdx
      [[("dataset_id", PyVal.cell (.vstr "d")), ("patient_key", PyVal.cell (.vstr "1")),
        ("mrn", PyVal.cell (.vstr "Y"))],
       [("dataset_id", PyVal.cell (.vstr "d")), ("patient_key", PyVal.cell (.vstr "2")),
        ("mrn", PyVal.cell (.vstr "X"))]]
      "d" "1" (PyVal.cell (.vstr "X")) = some 0 :=
  (C3_amended_resolution_order
    [[("dataset_id", PyVal.cell (.vstr "d")), ("patient_key", PyVal.cell (.vstr "1")),
      ("mrn", PyVal.cell (.vstr "Y"))],
     [("dataset_id", PyVal.cell (.vstr "d")), ("patient_key", PyVal.cell (.vstr "2")),
      ("mrn", PyVal.cell (.vstr "X"))]]
    "d" "1" (PyVal.cell (.vstr "X"))).1 0 (by decide)

/-! ## Claim C5: the two coercion layers are not the same function -/

/-- C5 counterexample.  On the boolean field, the raw cell `"confirmed"`
coerces to `True` on the apply-mapping path but to `False` on the
reprocess-update path (and `"t"` the other way around): the affirmative sets
differ, so the two layers are not the identical function. -/
theorem C5_counterexample :
    mapCoerceField "pca_confirmed" (.vstr "confirmed") = .vbool true ∧
    reprocessCoerceField "pca_confirmed" (.vstr "confirmed") = some (.vbool false) ∧
    mapCoerceField "pca_confirmed" (.vstr "t") = .vbool false ∧
    reprocessCoerceField "pca_confirmed" (.vstr "t") = some (.vbool true) := by
  decide

/-- C5 (amended): the coercions differ but agree on the common core.  For the
boolean field, on any string equal to its own lower-cased trimmed form and
outside the two divergent tokens `confirmed` (apply-mapping only) and `t`
(reprocess only), both layers produce the same boolean.  For unparsable
numbers the policies also differ: the apply-mapping path stores null while
the reprocess path skips the field. -/
theorem C5_amended_coercion_divergence (s : String)
    (h1 : pyLower s ≠ "confirmed") (h2 : pyLower s ≠ "t")
    (h3 : pyStripL (s.toList.map Char.toLower) = s.toList.map Char.toLower) :
    (∃ b : Bool,
      mapCoerceField "pca_confirmed" (.vstr s) = .vbool b ∧
      reprocessCoerceField "pca_confirmed" (.vstr s) = some (.vbool b)) ∧
    mapCoerceField "points" (.vstr "N/A") = .vnone ∧
    reprocessCoerceField "points" (.vstr "N/A") = none := by
  refine ⟨?_, by decide, by decide⟩
  have hmap : mapCoerceField "pca_confirmed" (.vstr s) =
      .vbool ((["true", "yes", "1", "y", "confirmed"] : List String).contains
        ⟨pyStripL (s.toList.map Char.toLower)⟩) := rfl
  have hrep : reprocessCoerceField "pca_confirmed" (.vstr s) =
      some (.vbool ((["true", "1", "yes", "y", "t"] : List String).contains
        (pyLower s))) := rfl
  rw [h3] at hmap
  have hstr : (⟨s.toList.map Char.toLower⟩ : String) = pyLower s := rfl
  rw [hstr] at hmap
  refine ⟨(["true", "yes", "1", "y", "confirmed"] : List String).contains (pyLower s),
    hmap, ?_⟩
  rw [hrep]
  have hagree :
      (["true", "1", "yes", "y", "t"] : List String).contains (pyLower s)
        = (["true", "yes", "1", "y", "confirmed"] : List String).contains (pyLower s) := by
    have hc : (pyLower s == "confirmed") = false := beq_eq_false_iff_ne.mpr h1
    have ht : (pyLower s == "t") = false := beq_eq_false_iff_ne.mpr h2
    simp only [List.contains_cons, List.contains_nil, hc, ht, Bool.or_false]
    cases htr : pyLower s == "true" <;> cases h1s : pyLower s == "1" <;>
      cases hys : pyLower s == "yes" <;> cases hy : pyLower s == "y" <;> rfl
  rw [hagree]

/-- C5 witness: the value `"yes"` coerces to the same boolean on both
paths. -/
theorem C5_amended_coercion_divergence_witness :
    (∃ b : Bool,
      mapCoerceField "pca_confirmed" (.vstr "yes") = .vbool b ∧
      reprocessCoerceField "pca_confirmed" (.vstr "yes") = some (.vbool b)) ∧
    mapCoerceField "points" (.vstr "N/A") = .vnone ∧
    reprocessCoerceField "points" (.vstr "N/A") = none :=
  C5_amended_coercion_divergence "yes" (by decide) (by decide) (by decide)

/-! ## Claim C6: the raw snapshot is NOT wholesale-replaced on update -/

/-- C6 counterexample.  An existing record with a populated raw snapshot
`{A: "1"}` and populated extension map `{k: "old"}` is merged with candidate
data carrying raw `{A: "2"}` and extensions `{k: "new", j: "x"}`: after the
update branch, the stored snapshot is still the OLD one — the new row
contributed nothing — and the extension map is likewise the old one, not a
key-by-key merge. -/
theorem C6_counterexample :
    getAttr (updateExistingRecord
        [("dataset_id", PyVal.cell (.vstr "d")), ("patient_key", PyVal.cell (.vstr "1")),
         ("raw", PyVal.vdict [("A", .vstr "1")]),
         ("extra_fields", PyVal.vdict [("k", .vstr "old")])]
        [("raw", PyVal.vdict [("A", .vstr "2")]),
         ("extra_fields", PyVal.vdict [("k", .vstr "new"), ("j", .vstr "x")])]
        (PyVal.cell .vnone)).1 "raw" = PyVal.vdict [("A", .vstr "1")] ∧
    getAttr (updateExistingRecord
        [("dataset_id", PyVal.cell (.vstr "d")), ("patient_key", PyVal.cell (.vstr "1")),
         ("raw", PyVal.vdict [("A", .vstr "1")]),
         ("extra_fields", PyVal.vdict [("k", .vstr "old")])]
        [("raw", PyVal.vdict [("A", .vstr "2")]),
         ("extra_fields", PyVal.vdict [("k", .vstr "new"), ("j", .vstr "x")])]
        (PyVal.cell .vnone)).1 "extra_fields" = PyVal.vdict [("k", .vstr "old")] := by
  decide

/-- C6 (amended): when a row resolves to an existing record, the raw
snapshot follows the same fill-only-if-missing rule as every other field of
the update branch: a populated stored snapshot is kept unchanged (the old
snapshot contributes everything, the new row nothing), and only a missing or
empty snapshot is replaced by the row's non-empty snapshot; the extension
map behaves the same way — it is not merged key-by-key in the update
branch. -/
theorem C6_amended_raw_not_replaced (existing : PatientRec)
    (pd : List (String × PyVal)) (now : PyVal) :
    (isMissingVal (getAttr existing "raw") = false →
      getAttr (updateExistingRecord existing pd now).1 "raw" = getAttr existing "raw") ∧
    (∀ m, isMissingVal (getAttr existing "raw") = true →
      List.lookup "raw" pd = some (PyVal.vdict m) → m ≠ [] →
      getAttr (updateExistingRecord existing pd now).1 "raw" = PyVal.vdict m) ∧
    (isMissingVal (getAttr existing "extra_fields") = false →
      getAttr (updateExistingRecord existing pd now).1 "extra_fields"
        = getAttr existing "extra_fields") := by
  refine ⟨?_, ?_, ?_⟩
  · intro hpop
    exact updateExistingRecord_preserves existing pd now "raw" (by decide) hpop
  · intro m hmiss hlk hm
    have hw : writableNew (PyVal.vdict m) = true := by
      simp only [writableNew, Bool.not_eq_true']
      simpa using hm
    have hfill := mergeFold_fills pd existing false "raw" (PyVal.vdict m)
      (by decide) hmiss hlk hw
    rw [updateExistingRecord]
    rcases hup : updateExisting existing pd with ⟨r, b⟩
    rw [updateExisting] at hup
    rw [hup] at hfill
    cases b
    · exact hfill
    · simp only []
      rw [getAttr_setAttr_ne r "updated_at" "raw" now (by decide)]
      exact hfill
  · intro hpop
    exact updateExistingRecord_preserves existing pd now "extra_fields" (by decide) hpop

/-- C6 witness: a record whose raw snapshot is empty receives the row's
snapshot, while a record with a populated snapshot keeps it. -/
theorem C6_amended_raw_not_replaced_witness :
    getAttr (updateExistingRecord
        [("dataset_id", PyVal.cell (.vstr "d")), ("raw", PyVal.vdict [])]
        [("raw", PyVal.vdict [("A", .vstr "2")])] (PyVal.cell .vnone)).1 "raw"
      = PyVal.vdict [("A", .vstr "2")] ∧
    getAttr (updateExistingRecord
        [("dataset_id", PyVal.cell (.vstr "d")), ("raw", PyVal.vdict [("A", .vstr "1")])]
        [("raw", PyVal.vdict [("A", .vstr "2")])] (PyVal.cell .vnone)).1 "raw"
      = PyVal.vdict [("A", .vstr "1")] := by
  constructor
  · exact (C6_amended_raw_not_replaced
      [("dataset_id", PyVal.cell (.vstr "d")), ("raw", PyVal.vdict [])]
      [("raw", PyVal.vdict [("A", .vstr "2")])] (PyVal.cell .vnone)).2.1
      [("A", .vstr "2")] (by decide) (by decide) (by decide)
  · have h := (C6_amended_raw_not_replaced
      [("dataset_id", PyVal.cell (.vstr "d")), ("raw", PyVal.vdict [("A", .vstr "1")])]
      [("raw", PyVal.vdict [("A", .vstr "2")])] (PyVal.cell .vnone)).1 (by decide)
    rw [h]
    decide

end DataManager
